import Mathlib

/-!
# CSCStubResolutionValidation

A shallow embedding of `Validation/MuonCSCDigis/src/CSCStubResolutionValidation.cc`
(`bookHistograms`, `analyze`, `isSimTrackGood`) together with the members declared in
`interface/CSCStubResolutionValidation.h`.

Modelling conventions.

* The `double` and `float` values read by `isSimTrackGood` (transverse momentum,
  pseudorapidity, the three thresholds) are values of `Fp`: NaN, the two infinities, or a
  finite value given by the rational it denotes. Comparisons are the IEEE-754 comparisons
  (false as soon as one side is NaN), and the conversion of the absolute pseudorapidity to
  `float` is the round-to-nearest-even narrowing to binary32, `Fp.toFloat`. Histogram axis
  limits and filled values are plain rationals.
* External collaborators are parameters or logs of the calls made on them:
  the stub matcher is a record of functions over an abstract matcher state, the
  classification `CSCDetId::iChamberType` and the label function `CSCDetId::chamberName`
  are function parameters, a histogram is the record of its booking arguments plus the
  sequence of values passed to `Fill`, the message logger is the list of emitted errors.
* C++ undefined behaviour (indexing outside a vector or array, dereferencing a histogram
  pointer that was never booked) is the `Except.error` result of the embedding; it is not
  an exception of the program, which contains no `throw`.
-/

namespace CSCStubResolution

/-! ## Data model -/

/-- An IEEE-754 value, `double` or `float`: NaN, an infinity, or a finite value given by the
rational number it denotes. -/
inductive Fp where
  | nan
  | negInf
  | fin (q : ℚ)
  | posInf
deriving DecidableEq

/-- IEEE-754 comparison `a < b`: false as soon as one side is NaN. -/
def Fp.lt : Fp → Fp → Bool
  | .nan, _ => false
  | .negInf, .nan => false
  | .negInf, .negInf => false
  | .negInf, .fin _ => true
  | .negInf, .posInf => true
  | .fin _, .nan => false
  | .fin _, .negInf => false
  | .fin a, .fin b => decide (a < b)
  | .fin _, .posInf => true
  | .posInf, _ => false

/-- IEEE-754 comparison `a > b`. -/
def Fp.gt (a b : Fp) : Bool := Fp.lt b a

/-- IEEE-754 comparison `a <= b`: false as soon as one side is NaN. -/
def Fp.le : Fp → Fp → Bool
  | .nan, _ => false
  | .negInf, .nan => false
  | .negInf, .negInf => true
  | .negInf, .fin _ => true
  | .negInf, .posInf => true
  | .fin _, .nan => false
  | .fin _, .negInf => false
  | .fin a, .fin b => decide (a ≤ b)
  | .fin _, .posInf => true
  | .posInf, .posInf => true
  | .posInf, .nan => false
  | .posInf, .negInf => false
  | .posInf, .fin _ => false

/-- Library function `std::abs` on a floating-point value. -/
def Fp.abs : Fp → Fp
  | .nan => .nan
  | .negInf => .posInf
  | .fin q => .fin |q|
  | .posInf => .posInf

/-- Nearest integer to `x`, ties to the even one. -/
def roundHalfEven (x : ℚ) : ℤ :=
  let f := ⌊x⌋
  let r := x - f
  if r < 1 / 2 then f
  else if 1 / 2 < r then f + 1
  else if f % 2 = 0 then f else f + 1

/-- Round-to-nearest-even conversion of a finite value to binary32 (24 significant bits,
least exponent `-126`, overflow to an infinity from `2^128` on). -/
def roundToFloat (q : ℚ) : Fp :=
  let e : ℤ := max (Int.log 2 |q|) (-126)
  let ulp : ℚ := 2 ^ (e - 23)
  let r : ℚ := roundHalfEven (q / ulp) * ulp
  if 2 ^ 128 ≤ |r| then (if q < 0 then .negInf else .posInf) else .fin r

/-- Conversion of a `double` to `float`. -/
def Fp.toFloat : Fp → Fp
  | .nan => .nan
  | .negInf => .negInf
  | .fin q => roundToFloat q
  | .posInf => .posInf

/-- Truth particle (`SimTrack`): the accessors read by `isSimTrackGood` and `analyze`.
`pt` and `eta` stand for the `double` values `momentum().pt()` and `momentum().eta()`. -/
structure SimTrack where
  trackId : Nat
  type : Int
  pt : Fp
  eta : Fp
  vertIndex : Int
  genpartIndex : Int
deriving DecidableEq

/-- Library accessor `SimTrack::noVertex()`: the vertex index is the sentinel `-1`. -/
def SimTrack.noVertex (t : SimTrack) : Bool := t.vertIndex == -1

/-- Library accessor `SimTrack::noGenpart()`: the generator index is the sentinel `-1`. -/
def SimTrack.noGenpart (t : SimTrack) : Bool := t.genpartIndex == -1

/-- Simulated vertex (`SimVertex`): a spatial origin point. -/
structure SimVertex where
  x : ℚ
  y : ℚ
  z : ℚ
deriving DecidableEq

/-- Reconstructed stub record (`CSCCLCTDigi`); `analyze` never reads its fields. -/
structure CSCCLCTDigi where
  bx : Nat
  keyStrip : Nat
  quality : Nat
  pattern : Nat
deriving DecidableEq

/-- Stubs of one detector element (`CSCCLCTDigiContainer`). -/
abbrev CSCCLCTDigiContainer := List CSCCLCTDigi

/-- Result of `CSCStubMatcher::clcts()`: the entries of the
`std::map<unsigned int, CSCCLCTDigiContainer>` in iteration order. -/
abbrev MatchResult := List (Nat × CSCCLCTDigiContainer)

/-- The products `analyze` retrieves from `edm::Event`. The truth and vertex handles are
dereferenced unconditionally by the code, so they are plain lists; the CLCT handle is
tested with `isValid()`, so it is optional. -/
structure Event where
  sim_tracks : List SimTrack
  sim_vertices : List SimVertex
  clcts : Option (List (Nat × CSCCLCTDigiContainer))
deriving DecidableEq

/-- Conditions record handed to the matcher together with the event (`edm::EventSetup`). -/
structure EventSetup where
  record : Nat
deriving DecidableEq

/-- External collaborator `CSCStubMatcher`, over an abstract matcher state `σ`. -/
structure CSCStubMatcher (σ : Type) where
  init : Event → EventSetup → σ → σ
  match_ : SimTrack → SimVertex → σ → σ
  clcts : σ → MatchResult

/-- Histogram (`MonitorElement`) as seen by this code: the arguments it was booked with and
the values passed to `Fill`, oldest first. -/
structure MonitorElement where
  folder : String
  name : String
  title : String
  nchX : Nat
  lowX : ℚ
  highX : ℚ
  entries : List ℚ
deriving DecidableEq

/-- Call `MonitorElement::Fill(x)`: one more sample. -/
def MonitorElement.Fill (me : MonitorElement) (x : ℚ) : MonitorElement :=
  { me with entries := me.entries ++ [x] }

/-- Histogram booker: the current folder and the histograms booked so far, oldest first. -/
structure IBooker where
  currentFolder : String
  booked : List MonitorElement
deriving DecidableEq

/-- Call `IBooker::setCurrentFolder(path)`. -/
def IBooker.setCurrentFolder (b : IBooker) (path : String) : IBooker :=
  { b with currentFolder := path }

/-- Call `IBooker::book1D(name, title, nchX, lowX, highX)`: a new empty histogram. -/
def IBooker.book1D (b : IBooker) (name title : String) (nchX : Nat) (lowX highX : ℚ) :
    MonitorElement × IBooker :=
  let me : MonitorElement :=
    { folder := b.currentFolder, name := name, title := title,
      nchX := nchX, lowX := lowX, highX := highX, entries := [] }
  (me, { b with booked := b.booked ++ [me] })

/-- Members of `CSCStubResolutionValidation` used by the three functions, the state of the
matcher it points to, and the errors sent to the message logger. A histogram pointer that
has not been assigned is `none`. -/
structure CSCStubResolutionValidation (σ : Type) where
  simTrackMinPt_ : Fp
  simTrackMinEta_ : Fp
  simTrackMaxEta_ : Fp
  inputTag_ : String
  cscStubMatcher_ : σ
  posresCLCT_hs : Fin 10 → Option MonitorElement
  posresCLCT_qs : Fin 10 → Option MonitorElement
  posresCLCT_es : Fin 10 → Option MonitorElement
  logError : List String

/-- Undefined behaviour the C++ code can run into. -/
inductive UndefinedBehaviour where
  | vertexOutOfRange (idx : Nat)
  | hitFlagOutOfRange (idx : Nat)
  | histogramOutOfRange (idx : Nat)
  | nullHistogram (idx : Nat)
deriving DecidableEq, Repr

/-! ## The three functions of the source -/

/-- Source function `CSCStubResolutionValidation::isSimTrackGood`. -/
def isSimTrackGood {σ : Type} (self : CSCStubResolutionValidation σ) (t : SimTrack) : Bool :=
  if t.noVertex then false
  else if t.noGenpart then false
  else if |t.type| ≠ 13 then false
  else if Fp.lt t.pt self.simTrackMinPt_ then false
  else
    let eta : Fp := Fp.toFloat (Fp.abs t.eta)
    if Fp.gt eta self.simTrackMaxEta_ || Fp.lt eta self.simTrackMinEta_ then false
    else true

/-- Assignment `arr[j] = me` on one of the three ten-slot pointer arrays. -/
def storeSlot (arr : Fin 10 → Option MonitorElement) (j : Nat) (me : MonitorElement) :
    Except UndefinedBehaviour (Fin 10 → Option MonitorElement) :=
  if h : j < 10 then .ok (Function.update arr ⟨j, h⟩ (some me))
  else .error (.histogramOutOfRange j)

/-- Body of the booking loop of `bookHistograms` for one value of `i`. The loop only visits
`i ≥ 1`, where the natural-number subtraction `i - 1` is the `int` subtraction. -/
def bookOne {σ : Type} (chamberName : Nat → String) (i : Nat)
    (st : CSCStubResolutionValidation σ × IBooker) :
    Except UndefinedBehaviour (CSCStubResolutionValidation σ × IBooker) :=
  let self := st.1
  let iBooker := st.2
  let j := i - 1
  let cn := chamberName i
  let t1 := "CLCTPosRes_hs_" ++ cn
  let t2 := "CLCTPosRes_qs_" ++ cn
  let t3 := "CLCTPosRes_es_" ++ cn
  let r1 := iBooker.book1D t1 (t1 ++ ";Strip_\x7bL1T\x7d - Strip_\x7bSIM\x7d") 100 (-1) 1
  match storeSlot self.posresCLCT_hs j r1.1 with
  | .error u => .error u
  | .ok hs =>
    let r2 := r1.2.book1D t2 (t2 ++ ";Strip_\x7bL1T\x7d - Strip_\x7bSIM\x7d") 100 (-1) 1
    match storeSlot self.posresCLCT_qs j r2.1 with
    | .error u => .error u
    | .ok qs =>
      let r3 := r2.2.book1D t3 (t3 ++ ";Strip_\x7bL1T\x7d - Strip_\x7bSIM\x7d") 100 (-1) 1
      match storeSlot self.posresCLCT_es j r3.1 with
      | .error u => .error u
      | .ok es =>
        .ok ({ self with posresCLCT_hs := hs, posresCLCT_qs := qs, posresCLCT_es := es }, r3.2)

/-- The loop `for (int i = 1; i <= 10; ++i)` of `bookHistograms`, over the values of `i`
still to be visited. -/
def bookLoop {σ : Type} (chamberName : Nat → String) :
    List Nat → CSCStubResolutionValidation σ × IBooker →
    Except UndefinedBehaviour (CSCStubResolutionValidation σ × IBooker)
  | [], st => .ok st
  | i :: rest, st =>
    match bookOne chamberName i st with
    | .error u => .error u
    | .ok st1 => bookLoop chamberName rest st1

/-- Source function `CSCStubResolutionValidation::bookHistograms`. -/
def bookHistograms {σ : Type} (chamberName : Nat → String)
    (self : CSCStubResolutionValidation σ) (iBooker : IBooker) :
    Except UndefinedBehaviour (CSCStubResolutionValidation σ × IBooker) :=
  let iBooker := iBooker.setCurrentFolder "MuonCSCDigisV/CSCDigiTask/Stub/Resolution/"
  bookLoop chamberName (List.range' 1 10) (self, iBooker)

/-- The loop over the entries of the match result in `analyze`:
`hitCLCT[chamberType - 1] = true` with `chamberType` an `unsigned`. The parameter
`iChamberType id` stands for `CSCDetId(id).iChamberType()`. -/
def hitLoop (iChamberType : Nat → Nat) :
    MatchResult → List Bool → Except UndefinedBehaviour (List Bool)
  | [], hitCLCT => .ok hitCLCT
  | (id, _) :: rest, hitCLCT =>
    let chamberType := iChamberType id % 2 ^ 32
    let idx := (chamberType + 2 ^ 32 - 1) % 2 ^ 32
    if idx < hitCLCT.length then hitLoop iChamberType rest (hitCLCT.set idx true)
    else .error (.hitFlagOutOfRange idx)

/-- Call `arr[i]->Fill(x)` on one of the three pointer arrays. -/
def fillSlot (arr : Fin 10 → Option MonitorElement) (i : Nat) (x : ℚ) :
    Except UndefinedBehaviour (Fin 10 → Option MonitorElement) :=
  if h : i < 10 then
    match arr ⟨i, h⟩ with
    | some me => .ok (Function.update arr ⟨i, h⟩ (some (me.Fill x)))
    | none => .error (.nullHistogram i)
  else .error (.histogramOutOfRange i)

/-- The loop `for (int i = 0; i < 10; i++)` of `analyze`, over the values of `i` still to be
visited. -/
def fillLoop {σ : Type} :
    List Nat → List Bool → CSCStubResolutionValidation σ →
    Except UndefinedBehaviour (CSCStubResolutionValidation σ)
  | [], _, self => .ok self
  | i :: rest, hitCLCT, self =>
    match hitCLCT[i]? with
    | none => .error (.hitFlagOutOfRange i)
    | some false => fillLoop rest hitCLCT self
    | some true =>
      match fillSlot self.posresCLCT_hs i 0 with
      | .error u => .error u
      | .ok hs =>
        match fillSlot self.posresCLCT_qs i 0 with
        | .error u => .error u
        | .ok qs =>
          match fillSlot self.posresCLCT_es i 0 with
          | .error u => .error u
          | .ok es =>
            fillLoop rest hitCLCT
              { self with posresCLCT_hs := hs, posresCLCT_qs := qs, posresCLCT_es := es }

/-- Index used by `sim_vert[t.vertIndex()]`: the `int` converted to `size_t`. -/
def vertexSlot (t : SimTrack) : Nat := (t.vertIndex % 2 ^ 64).toNat

/-- The loop over `sim_track_selected` in `analyze`. -/
def trackLoop {σ : Type} (M : CSCStubMatcher σ) (iChamberType : Nat → Nat)
    (sim_vert : List SimVertex) :
    List SimTrack → CSCStubResolutionValidation σ →
    Except UndefinedBehaviour (CSCStubResolutionValidation σ)
  | [], self => .ok self
  | t :: rest, self =>
    let hitCLCT := List.replicate 10 false
    match sim_vert[vertexSlot t]? with
    | none => .error (.vertexOutOfRange (vertexSlot t))
    | some v =>
      let self1 := { self with cscStubMatcher_ := M.match_ t v self.cscStubMatcher_ }
      let clcts := M.clcts self1.cscStubMatcher_
      match hitLoop iChamberType clcts hitCLCT with
      | .error u => .error u
      | .ok hit =>
        match fillLoop (List.range 10) hit self1 with
        | .error u => .error u
        | .ok self2 => trackLoop M iChamberType sim_vert rest self2

/-- Text of the diagnostic of `analyze` for an invalid CLCT handle. -/
def cannotGetCLCTs (inputTag : String) : String := "Cannot get CLCTs by label " ++ inputTag

/-- Source function `CSCStubResolutionValidation::analyze`. -/
def analyze {σ : Type} (M : CSCStubMatcher σ) (iChamberType : Nat → Nat)
    (self : CSCStubResolutionValidation σ) (e : Event) (eventSetup : EventSetup) :
    Except UndefinedBehaviour (CSCStubResolutionValidation σ) :=
  let self1 := { self with cscStubMatcher_ := M.init e eventSetup self.cscStubMatcher_ }
  let sim_track := e.sim_tracks
  let sim_vert := e.sim_vertices
  let self2 :=
    if e.clcts.isSome then self1
    else { self1 with logError := self1.logError ++ [cannotGetCLCTs self1.inputTag_] }
  let sim_track_selected := sim_track.filter (isSimTrackGood self2)
  if sim_track_selected.isEmpty then .ok self2
  else trackLoop M iChamberType sim_vert sim_track_selected self2

/-! ## Vocabulary of the specification -/

/-- The truth particles `analyze` keeps: those passing `isSimTrackGood`, in event order. -/
def selected {σ : Type} (self : CSCStubResolutionValidation σ) (e : Event) : List SimTrack :=
  e.sim_tracks.filter (isSimTrackGood self)

/-- All thirty histogram pointers have been assigned. -/
def Booked {σ : Type} (self : CSCStubResolutionValidation σ) : Prop :=
  ∀ k : Fin 10, (self.posresCLCT_hs k).isSome = true ∧ (self.posresCLCT_qs k).isSome = true ∧
    (self.posresCLCT_es k).isSome = true

/-- Every vertex reference other than the sentinel `-1` is an index into the vertex list. -/
def VerticesValid (e : Event) : Prop :=
  ∀ t ∈ e.sim_tracks, t.vertIndex ≠ -1 → 0 ≤ t.vertIndex ∧ t.vertIndex < e.sim_vertices.length

/-- The tracks `ts` paired with their match results when `match` is called for each in turn,
starting from matcher state `m`: the result of a track is `clcts()` right after that track's
own `match` call. The list stops at a track whose vertex index is outside the vertex list. -/
def matchTrace {σ : Type} (M : CSCStubMatcher σ) (sim_vert : List SimVertex) :
    List SimTrack → σ → List (SimTrack × MatchResult)
  | [], _ => []
  | t :: rest, m =>
    match sim_vert[vertexSlot t]? with
    | none => []
    | some v => (t, M.clcts (M.match_ t v m)) :: matchTrace M sim_vert rest (M.match_ t v m)

/-- Matcher state after the `match` calls for the tracks `ts`, starting from state `m`. -/
def matcherAfter {σ : Type} (M : CSCStubMatcher σ) (sim_vert : List SimVertex) :
    List SimTrack → σ → σ
  | [], m => m
  | t :: rest, m =>
    match sim_vert[vertexSlot t]? with
    | none => m
    | some v => matcherAfter M sim_vert rest (M.match_ t v m)

/-- The selected particles of the event, each with the match result `analyze` reads for
it. -/
def eventTrace {σ : Type} (M : CSCStubMatcher σ) (self : CSCStubResolutionValidation σ)
    (e : Event) (eventSetup : EventSetup) : List (SimTrack × MatchResult) :=
  matchTrace M e.sim_vertices (selected self e) (M.init e eventSetup self.cscStubMatcher_)

/-- Some key of the match result classifies to detector type `k`. -/
def hitsType (iChamberType : Nat → Nat) (r : MatchResult) (k : Nat) : Bool :=
  r.any (fun p => iChamberType p.1 == k)

/-- Every key of every match result of the list classifies to a type in `[1,10]`. -/
def KeysInRange (iChamberType : Nat → Nat) (trace : List (SimTrack × MatchResult)) : Prop :=
  ∀ tr ∈ trace, ∀ p ∈ tr.2, 1 ≤ iChamberType p.1 ∧ iChamberType p.1 ≤ 10

/-- Number of particles of the list whose match result has a key of detector type `k`. -/
def hitCount (iChamberType : Nat → Nat) (trace : List (SimTrack × MatchResult)) (k : Nat) :
    Nat :=
  trace.countP (fun tr => hitsType iChamberType tr.2 k)

/-- Histogram `me` after `n` further calls `Fill(0)`. -/
def fillMany (n : Nat) (me : MonitorElement) : MonitorElement :=
  { me with entries := me.entries ++ List.replicate n 0 }

/-- The object after `n k` calls `Fill(0)` on each of the three histograms of slot `k`. -/
def addSamples {σ : Type} (self : CSCStubResolutionValidation σ) (n : Fin 10 → Nat) :
    CSCStubResolutionValidation σ :=
  { self with
    posresCLCT_hs := fun k => (self.posresCLCT_hs k).map (fillMany (n k))
    posresCLCT_qs := fun k => (self.posresCLCT_qs k).map (fillMany (n k))
    posresCLCT_es := fun k => (self.posresCLCT_es k).map (fillMany (n k)) }

/-- Samples held by a histogram pointer (none for a pointer never assigned). -/
def samples (h : Option MonitorElement) : List ℚ :=
  match h with
  | some me => me.entries
  | none => []

/-- Calls received by a stub matcher. -/
inductive MatcherCall where
  | init (e : Event) (eventSetup : EventSetup)
  | match_ (t : SimTrack) (v : SimVertex)
deriving DecidableEq

/-- The object after the first steps of `analyze`: the matcher has been initialised with the
event, and one error has been logged if the CLCT handle is invalid. -/
def afterInit {σ : Type} (M : CSCStubMatcher σ) (self : CSCStubResolutionValidation σ)
    (e : Event) (eventSetup : EventSetup) : CSCStubResolutionValidation σ :=
  { self with
    cscStubMatcher_ := M.init e eventSetup self.cscStubMatcher_
    logError := self.logError ++
      (if e.clcts.isSome then [] else [cannotGetCLCTs self.inputTag_]) }

/-- The absolute pseudorapidity of a particle as `isSimTrackGood` compares it: narrowed to
single precision. -/
def narrowedAbsEta (t : SimTrack) : Fp := Fp.toFloat (Fp.abs t.eta)

/-- One of the two values is NaN, so that every comparison between them is false. -/
def Unordered (a b : Fp) : Prop := a = Fp.nan ∨ b = Fp.nan

/-- The conditions of the specification under which a truth particle is ineligible, read on
the particle's own values: no vertex reference, transverse momentum strictly below the
minimum, or absolute pseudorapidity strictly outside the window. -/
def Excluded {σ : Type} (self : CSCStubResolutionValidation σ) (t : SimTrack) : Prop :=
  t.vertIndex = -1 ∨ Fp.lt t.pt self.simTrackMinPt_ = true ∨
    Fp.lt (Fp.abs t.eta) self.simTrackMinEta_ = true ∨
    Fp.lt self.simTrackMaxEta_ (Fp.abs t.eta) = true

/-- The same conditions with the absolute pseudorapidity taken as the code compares it, after
its narrowing to single precision. -/
def ExcludedNarrowed {σ : Type} (self : CSCStubResolutionValidation σ) (t : SimTrack) : Prop :=
  t.vertIndex = -1 ∨ Fp.lt t.pt self.simTrackMinPt_ = true ∨
    Fp.lt (narrowedAbsEta t) self.simTrackMinEta_ = true ∨
    Fp.lt self.simTrackMaxEta_ (narrowedAbsEta t) = true

/-- Every one of the thirty bins of `new` holds the samples it held in `old`, in the same
order, possibly followed by further samples. -/
def BinsExtend {σ : Type} (old new : CSCStubResolutionValidation σ) : Prop :=
  ∀ k : Fin 10,
    samples (old.posresCLCT_hs k) <+: samples (new.posresCLCT_hs k) ∧
    samples (old.posresCLCT_qs k) <+: samples (new.posresCLCT_qs k) ∧
    samples (old.posresCLCT_es k) <+: samples (new.posresCLCT_es k)

/-- The three pointer arrays of `new` are those of `old`, with the same histogram contents. -/
def BinsUnchanged {σ : Type} (old new : CSCStubResolutionValidation σ) : Prop :=
  new.posresCLCT_hs = old.posresCLCT_hs ∧ new.posresCLCT_qs = old.posresCLCT_qs ∧
    new.posresCLCT_es = old.posresCLCT_es

/-- The `match` calls for the tracks `ts`, in order, each with the vertex found at the
track's vertex index. -/
def matchCalls (sim_vert : List SimVertex) (ts : List SimTrack) : List MatcherCall :=
  ts.filterMap (fun t => (sim_vert[vertexSlot t]?).map (MatcherCall.match_ t))

/-- The histogram `bookHistograms` is expected to book for granularity tag `tag` and chamber
name `cn` in folder `folder`: named `tag ++ cn`, 100 bins on `[-1, 1]`, no sample. -/
def bookedHistogram (folder tag cn : String) : MonitorElement :=
  { folder := folder
    name := tag ++ cn
    title := tag ++ cn ++ ";Strip_\x7bL1T\x7d - Strip_\x7bSIM\x7d"
    nchX := 100
    lowX := -1
    highX := 1
    entries := [] }

/-- The folder `bookHistograms` selects before booking. -/
def resolutionFolder : String := "MuonCSCDigisV/CSCDigiTask/Stub/Resolution/"

/-- The three histograms expected for detector type `i`, in booking order. -/
def bookedTriple (chamberName : Nat → String) (folder : String) (i : Nat) :
    List MonitorElement :=
  [bookedHistogram folder "CLCTPosRes_hs_" (chamberName i),
   bookedHistogram folder "CLCTPosRes_qs_" (chamberName i),
   bookedHistogram folder "CLCTPosRes_es_" (chamberName i)]

/-- The host framework's event loop: `analyze` is called once per event, in order, on the
same object. -/
def analyzeEvents {σ : Type} (M : CSCStubMatcher σ) (iChamberType : Nat → Nat) :
    List (Event × EventSetup) → CSCStubResolutionValidation σ →
    Except UndefinedBehaviour (CSCStubResolutionValidation σ)
  | [], self => .ok self
  | (e, eventSetup) :: rest, self =>
    match analyze M iChamberType self e eventSetup with
    | .error u => .error u
    | .ok self1 => analyzeEvents M iChamberType rest self1

/-- A stub matcher whose state is the list of calls it has received, oldest first, and whose
match result is an arbitrary function `result` of that history. -/
def recordingMatcher (result : List MatcherCall → MatchResult) :
    CSCStubMatcher (List MatcherCall) :=
  { init := fun e eventSetup calls => calls ++ [MatcherCall.init e eventSetup]
    match_ := fun t v calls => calls ++ [MatcherCall.match_ t v]
    clcts := result }

/-! ## Concrete inputs used in the examples -/

/-- A stateless matcher returning the same match result `r` for every particle. -/
def constMatcher (r : MatchResult) : CSCStubMatcher Unit :=
  { init := fun _ _ m => m
    match_ := fun _ _ m => m
    clcts := fun _ => r }

/-- Example classification: the detector type is the identifier modulo 16. -/
def demoChamberType (id : Nat) : Nat := id % 16

/-- Example labels of the detector types. -/
def demoChamberName (i : Nat) : String :=
  ["NULL", "ME1/a", "ME1/b", "ME1/2", "ME1/3", "ME2/1", "ME2/2", "ME3/1", "ME3/2", "ME4/1",
    "ME4/2"].getD i "NULL"

/-- An empty histogram. -/
def demoHistogram : MonitorElement :=
  { folder := "", name := "h", title := "", nchX := 100, lowX := -1, highX := 1, entries := [] }

/-- An object with thresholds `minPt = 3.0`, `minEta = 0.9` and the given `maxEta`, and all
thirty histograms booked and empty. -/
def demoValidation (maxEta : ℚ) : CSCStubResolutionValidation Unit :=
  { simTrackMinPt_ := Fp.fin 3
    simTrackMinEta_ := Fp.fin (9 / 10)
    simTrackMaxEta_ := Fp.fin maxEta
    inputTag_ := "simCscTriggerPrimitiveDigis"
    cscStubMatcher_ := ()
    posresCLCT_hs := fun _ => some demoHistogram
    posresCLCT_qs := fun _ => some demoHistogram
    posresCLCT_es := fun _ => some demoHistogram
    logError := [] }

/-- An object like `demoValidation (12 / 5)` before `bookHistograms`. -/
def unbookedValidation : CSCStubResolutionValidation Unit :=
  { simTrackMinPt_ := Fp.fin 3
    simTrackMinEta_ := Fp.fin (9 / 10)
    simTrackMaxEta_ := Fp.fin (12 / 5)
    inputTag_ := "simCscTriggerPrimitiveDigis"
    cscStubMatcher_ := ()
    posresCLCT_hs := fun _ => none
    posresCLCT_qs := fun _ => none
    posresCLCT_es := fun _ => none
    logError := [] }

/-- A muon with transverse momentum `5.0`, the given pseudorapidity, vertex index `0` and a
generator link. -/
def demoMuon (eta : ℚ) : SimTrack :=
  { trackId := 1, type := 13, pt := Fp.fin 5, eta := Fp.fin eta, vertIndex := 0,
    genpartIndex := 0 }

/-- A muon like `demoMuon (-2)` whose vertex index is `1`. -/
def demoMuonAtOne : SimTrack :=
  { trackId := 3, type := -13, pt := Fp.fin 5, eta := Fp.fin (-2), vertIndex := 1,
    genpartIndex := 2 }

/-- A muon like `demoMuon (3 / 2)` whose transverse momentum is NaN. -/
def demoNaNMuon : SimTrack :=
  { trackId := 4, type := 13, pt := Fp.nan, eta := Fp.fin (3 / 2), vertIndex := 0,
    genpartIndex := 0 }

/-- A stub record. -/
def demoStub : CSCCLCTDigi := { bx := 7, keyStrip := 40, quality := 5, pattern := 10 }

/-- An event with the given truth particles, one vertex, and a CLCT collection that is valid
or not. -/
def demoEvent (ts : List SimTrack) (valid : Bool) : Event :=
  { sim_tracks := ts
    sim_vertices := [{ x := 0, y := 0, z := 0 }]
    clcts := if valid then some [] else none }

/-- The conditions record of the examples. -/
def demoSetup : EventSetup := { record := 0 }

/-- The object `demoValidation (12 / 5)` attached to a matcher that records its calls, with no
call received yet. -/
def demoRecording : CSCStubResolutionValidation (List MatcherCall) :=
  { simTrackMinPt_ := Fp.fin 3
    simTrackMinEta_ := Fp.fin (9 / 10)
    simTrackMaxEta_ := Fp.fin (12 / 5)
    inputTag_ := "simCscTriggerPrimitiveDigis"
    cscStubMatcher_ := []
    posresCLCT_hs := fun _ => some demoHistogram
    posresCLCT_qs := fun _ => some demoHistogram
    posresCLCT_es := fun _ => some demoHistogram
    logError := [] }

/-- Example answers of a recording matcher: a stub of type 3 when the history holds two
calls, two stubs of type 5 otherwise. -/
def demoResult (calls : List MatcherCall) : MatchResult :=
  if calls.length = 2 then [(3, [demoStub])] else [(5, [demoStub, demoStub])]

/-- An event with two vertices and three particles: an eligible muon at vertex index 0, an
ineligible one (pseudorapidity `2.6`) and a second eligible one (pseudorapidity `-2.0`) at
vertex index 1. -/
def demoEvent3 : Event :=
  { sim_tracks := [demoMuon (3 / 2), demoMuon (13 / 5), demoMuonAtOne]
    sim_vertices := [{ x := 0, y := 0, z := 0 }, { x := 0, y := 0, z := 7 }]
    clcts := some [] }

end CSCStubResolution

namespace CSCStubResolution

/-! ## Auxiliary lemmas -/

theorem fillMany_zero (me : MonitorElement) : fillMany 0 me = me := by
  cases me; simp [fillMany]

theorem fillMany_fillMany (a b : Nat) (me : MonitorElement) :
    fillMany b (fillMany a me) = fillMany (a + b) me := by
  cases me; simp only [fillMany, List.append_assoc, List.replicate_add]

theorem fill_eq_fillMany (me : MonitorElement) : me.Fill 0 = fillMany 1 me := by
  cases me; simp only [fillMany, MonitorElement.Fill, List.replicate]

theorem addSamples_zero {σ : Type} (self : CSCStubResolutionValidation σ) :
    addSamples self (fun _ => 0) = self := by
  have h : ∀ o : Option MonitorElement, o.map (fillMany 0) = o := by
    intro o; cases o <;> simp [fillMany_zero]
  cases self
  simp only [addSamples, h]

theorem addSamples_addSamples {σ : Type} (self : CSCStubResolutionValidation σ)
    (a b : Fin 10 → Nat) :
    addSamples (addSamples self a) b = addSamples self (fun k => a k + b k) := by
  cases self
  simp only [addSamples, Option.map_map]
  congr 1 <;> funext k <;> congr 1 <;> funext me <;> simp [fillMany_fillMany]

theorem booked_addSamples {σ : Type} (self : CSCStubResolutionValidation σ)
    (n : Fin 10 → Nat) (hb : Booked self) : Booked (addSamples self n) := by
  intro k
  have h := hb k
  simp [addSamples, h.1, h.2.1, h.2.2]

theorem hitLoop_ok (c : Nat → Nat) (r : MatchResult) :
    ∀ hit : List Bool, hit.length = 10 →
      (∀ p ∈ r, 1 ≤ c p.1 ∧ c p.1 ≤ 10) →
      ∃ hit1, hitLoop c r hit = .ok hit1 ∧ hit1.length = 10 ∧
        ∀ i, hit1[i]?.getD false = (hit[i]?.getD false || (decide (i < 10) && hitsType c r (i + 1))) := by
  induction r with
  | nil =>
    intro hit hl _
    exact ⟨hit, rfl, hl, by intro i; simp [hitsType]⟩
  | cons p rest ih =>
    intro hit hl hr
    obtain ⟨id, ct⟩ := p
    have hp := hr (id, ct) (List.mem_cons_self _ _)
    simp only at hp
    have hidx : (c id % 2 ^ 32 + 2 ^ 32 - 1) % 2 ^ 32 = c id - 1 := by omega
    obtain ⟨hit1, h1, h2, h3⟩ := ih (hit.set (c id - 1) true) (by simpa using hl)
      (fun q hq => hr q (List.mem_cons_of_mem _ hq))
    refine ⟨hit1, ?_, h2, ?_⟩
    · simp only [hitLoop, hidx]
      rw [if_pos (by omega)]
      exact h1
    · intro i
      rw [h3 i, List.getElem?_set]
      by_cases hi : c id - 1 = i
      · have hci : c id = i + 1 := by omega
        have hlt : i < 10 := by omega
        have hlt2 : c id - 1 < hit.length := by omega
        simp [hitsType, hi, hci, hlt, hl]
      · have hci : (c id == i + 1) = false := by
          rw [beq_eq_false_iff_ne]; omega
        simp [hitsType, hi, hci]

theorem fillSlot_ok (arr : Fin 10 → Option MonitorElement) (i : Nat) (hi : i < 10)
    (hs : (arr ⟨i, hi⟩).isSome = true) :
    fillSlot arr i 0 = .ok (fun k => (arr k).map (fillMany (if k.val = i then 1 else 0))) := by
  unfold fillSlot
  rw [dif_pos hi]
  obtain ⟨me, hme⟩ := Option.isSome_iff_exists.mp hs
  rw [hme]
  simp only
  congr 1
  funext k
  by_cases hk : k = ⟨i, hi⟩
  · subst hk
    simp [hme, fill_eq_fillMany]
  · have hne : ¬ k.val = i := fun h => hk (Fin.ext h)
    have hz : ∀ o : Option MonitorElement, o.map (fillMany 0) = o := by
      intro o; cases o <;> simp [fillMany_zero]
    simp [Function.update, hk, hne, hz]

theorem fillLoop_ok {σ : Type} (hit : List Bool) :
    ∀ (is : List Nat) (self : CSCStubResolutionValidation σ), is.Nodup → (∀ i ∈ is, i < 10) →
      hit.length = 10 → Booked self →
      fillLoop is hit self =
        .ok (addSamples self
          (fun k => if k.val ∈ is ∧ hit[k.val]?.getD false = true then 1 else 0)) := by
  intro is
  induction is with
  | nil =>
    intro self _ _ _ _
    simp only [fillLoop, List.not_mem_nil, false_and, if_false, addSamples_zero]
  | cons i rest ih =>
    intro self hnd hlt hl hb
    have hi : i < 10 := hlt i (List.mem_cons_self _ _)
    have hirest : i ∉ rest := (List.nodup_cons.mp hnd).1
    have hnd1 : rest.Nodup := (List.nodup_cons.mp hnd).2
    have hlt1 : ∀ j ∈ rest, j < 10 := fun j hj => hlt j (List.mem_cons_of_mem _ hj)
    have hget : hit[i]? = some hit[i] := List.getElem?_eq_getElem (by omega)
    cases hv : hit[i] with
    | false =>
      rw [hv] at hget
      simp only [fillLoop, hget]
      rw [ih self hnd1 hlt1 hl hb]
      congr 2
      funext k
      by_cases hk : k.val = i
      · simp [hk, hget, hirest]
      · simp [hk]
    | true =>
      rw [hv] at hget
      have hbi := hb ⟨i, hi⟩
      simp only [fillLoop, hget, fillSlot_ok _ i hi hbi.1, fillSlot_ok _ i hi hbi.2.1,
        fillSlot_ok _ i hi hbi.2.2]
      have hst : ({ self with
          posresCLCT_hs := fun k => (self.posresCLCT_hs k).map (fillMany (if k.val = i then 1 else 0))
          posresCLCT_qs := fun k => (self.posresCLCT_qs k).map (fillMany (if k.val = i then 1 else 0))
          posresCLCT_es := fun k => (self.posresCLCT_es k).map (fillMany (if k.val = i then 1 else 0)) }
            : CSCStubResolutionValidation σ)
          = addSamples self (fun k => if k.val = i then 1 else 0) := rfl
      rw [hst, ih _ hnd1 hlt1 hl (booked_addSamples _ _ hb), addSamples_addSamples]
      congr 2
      funext k
      by_cases hk : k.val = i
      · simp [hk, hget, hirest]
      · simp [hk]

theorem trackLoop_ok {σ : Type} (M : CSCStubMatcher σ) (c : Nat → Nat)
    (sim_vert : List SimVertex) :
    ∀ (ts : List SimTrack) (self : CSCStubResolutionValidation σ), Booked self →
      (∀ t ∈ ts, vertexSlot t < sim_vert.length) →
      KeysInRange c (matchTrace M sim_vert ts self.cscStubMatcher_) →
      trackLoop M c sim_vert ts self =
        .ok (addSamples
          { self with cscStubMatcher_ := matcherAfter M sim_vert ts self.cscStubMatcher_ }
          (fun k => hitCount c (matchTrace M sim_vert ts self.cscStubMatcher_) (k.val + 1))) := by
  intro ts
  induction ts with
  | nil =>
    intro self _ _ _
    simp only [trackLoop, matcherAfter, matchTrace, hitCount, List.countP_nil]
    rw [addSamples_zero]
  | cons t rest ih =>
    intro self hb hv hk
    have hlt : vertexSlot t < sim_vert.length := hv t (List.mem_cons_self _ _)
    have hget : sim_vert[vertexSlot t]? = some sim_vert[vertexSlot t] :=
      List.getElem?_eq_getElem hlt
    simp only [matchTrace, hget] at hk
    obtain ⟨hit1, h1, h2, h3⟩ := hitLoop_ok c
      (M.clcts (M.match_ t sim_vert[vertexSlot t] self.cscStubMatcher_))
      (List.replicate 10 false) (by simp)
      (hk (t, _) (List.mem_cons_self _ _))
    have hb1 : Booked ({ self with
        cscStubMatcher_ := M.match_ t sim_vert[vertexSlot t] self.cscStubMatcher_ }
        : CSCStubResolutionValidation σ) := hb
    simp only [trackLoop, matchTrace, matcherAfter, hget, h1]
    rw [fillLoop_ok hit1 (List.range 10) _ (List.nodup_range 10)
      (fun i hi => List.mem_range.mp hi) h2 hb1]
    simp only
    rw [ih _ (booked_addSamples _ _ hb1) (fun u hu => hv u (List.mem_cons_of_mem _ hu))
      (fun r hr => hk r (List.mem_cons_of_mem _ hr))]
    have hsw : ∀ (s : CSCStubResolutionValidation σ) (n : Fin 10 → Nat) (m : σ),
        ({ addSamples s n with cscStubMatcher_ := m } : CSCStubResolutionValidation σ)
          = addSamples { s with cscStubMatcher_ := m } n := fun _ _ _ => rfl
    have hm : ∀ (s : CSCStubResolutionValidation σ) (n : Fin 10 → Nat),
        (addSamples s n).cscStubMatcher_ = s.cscStubMatcher_ := fun _ _ => rfl
    rw [hm, hsw, addSamples_addSamples]
    congr 2
    funext k
    have hrep : (List.replicate 10 false)[k.val]?.getD false = false := by
      rw [List.getElem?_replicate]
      split <;> rfl
    rw [h3 k.val, hrep]
    simp only [hitCount, List.countP_cons]
    have hk10 : k.val < 10 := k.isLt
    simp [hk10, Nat.add_comm]

theorem Fp.lt_eq_false_iff (a b : Fp) :
    Fp.lt a b = false ↔ (Fp.le b a = true ∨ Unordered a b) := by
  cases a <;> cases b <;> simp [Fp.lt, Fp.le, Unordered]

theorem intLog_eq (q : ℚ) (k : ℤ) (h1 : (2 : ℚ) ^ k ≤ |q|) (h2 : |q| < (2 : ℚ) ^ (k + 1)) :
    Int.log 2 |q| = k := by
  have hpos : 0 < |q| := lt_of_lt_of_le (by positivity) h1
  have h2b : |q| < ((2 : ℕ) : ℚ) ^ (k + 1) := by exact_mod_cast h2
  have h1b : ((2 : ℕ) : ℚ) ^ k ≤ |q| := by exact_mod_cast h1
  apply le_antisymm
  · have h := (Int.lt_zpow_iff_log_lt (by norm_num) hpos).mp h2b
    omega
  · exact (Int.zpow_le_iff_le_log (by norm_num) hpos).mp h1b

theorem roundToFloat_down (q : ℚ) (k n : ℤ) (hk : -126 ≤ k)
    (h1 : (2 : ℚ) ^ k ≤ |q|) (h2 : |q| < (2 : ℚ) ^ (k + 1))
    (hn1 : (n : ℚ) ≤ q / 2 ^ (k - 23)) (hn2 : q / 2 ^ (k - 23) < n + 1 / 2)
    (hfin : |(n : ℚ) * 2 ^ (k - 23)| < 2 ^ 128) :
    roundToFloat q = Fp.fin (n * 2 ^ (k - 23)) := by
  have hfloor : ⌊q / 2 ^ (k - 23)⌋ = n := by
    rw [Int.floor_eq_iff]
    constructor
    · exact hn1
    · linarith
  have hr : roundHalfEven (q / 2 ^ (k - 23)) = n := by
    unfold roundHalfEven
    simp only [hfloor]
    rw [if_pos (by linarith)]
  unfold roundToFloat
  simp only [intLog_eq q k h1 h2, max_eq_left hk, hr]
  rw [if_neg (not_le.mpr hfin)]

theorem narrow_three_halves : roundToFloat (3 / 2) = Fp.fin (3 / 2) := by
  have h := roundToFloat_down (3 / 2) 0 12582912 (by norm_num)
    (by norm_num [abs_of_nonneg]) (by norm_num [abs_of_nonneg]) (by norm_num) (by norm_num)
    (by norm_num [abs_of_nonneg])
  rw [h]
  norm_num

theorem narrow_two : roundToFloat 2 = Fp.fin 2 := by
  have h := roundToFloat_down 2 1 8388608 (by norm_num)
    (by norm_num [abs_of_nonneg]) (by norm_num [abs_of_nonneg]) (by norm_num) (by norm_num)
    (by norm_num [abs_of_nonneg])
  rw [h]
  norm_num

theorem narrow_five_halves : roundToFloat (5 / 2) = Fp.fin (5 / 2) := by
  have h := roundToFloat_down (5 / 2) 1 10485760 (by norm_num)
    (by norm_num [abs_of_nonneg]) (by norm_num [abs_of_nonneg]) (by norm_num) (by norm_num)
    (by norm_num [abs_of_nonneg])
  rw [h]
  norm_num

theorem narrow_above_five_halves : roundToFloat (5 / 2 + 1 / 2 ^ 51) = Fp.fin (5 / 2) := by
  have h := roundToFloat_down (5 / 2 + 1 / 2 ^ 51) 1 10485760 (by norm_num)
    (by norm_num [abs_of_nonneg]) (by norm_num [abs_of_nonneg]) (by norm_num) (by norm_num)
    (by norm_num [abs_of_nonneg])
  rw [h]
  norm_num

theorem narrow_thirteen_fifths : roundToFloat (13 / 5) = Fp.fin (5452595 / 2097152) := by
  have h := roundToFloat_down (13 / 5) 1 10905190 (by norm_num)
    (by norm_num [abs_of_nonneg]) (by norm_num [abs_of_nonneg]) (by norm_num) (by norm_num)
    (by norm_num [abs_of_nonneg])
  rw [h]
  norm_num

theorem isSimTrackGood_iff {σ : Type} (self : CSCStubResolutionValidation σ) (t : SimTrack) :
    isSimTrackGood self t = true ↔
      t.vertIndex ≠ -1 ∧ t.genpartIndex ≠ -1 ∧ |t.type| = 13 ∧
        Fp.lt t.pt self.simTrackMinPt_ = false ∧
        Fp.lt self.simTrackMaxEta_ (narrowedAbsEta t) = false ∧
        Fp.lt (narrowedAbsEta t) self.simTrackMinEta_ = false := by
  simp only [isSimTrackGood, SimTrack.noVertex, SimTrack.noGenpart, beq_iff_eq, Fp.gt,
    narrowedAbsEta]
  split_ifs with h1 h2 h3 h4 h5 <;> simp_all
  intro h
  rcases h5 with h6 | h6
  · rw [h] at h6; cases h6
  · exact h6

theorem vertexSlot_lt_of_good {σ : Type} (self : CSCStubResolutionValidation σ) (e : Event)
    (hv : VerticesValid e) (t : SimTrack) (ht : t ∈ selected self e) :
    vertexSlot t < e.sim_vertices.length := by
  obtain ⟨hmem, hgood⟩ := List.mem_filter.mp ht
  have h := hv t hmem ((isSimTrackGood_iff self t).mp hgood).1
  unfold vertexSlot
  omega

theorem analyze_ok_of_slots {σ : Type} (M : CSCStubMatcher σ) (c : Nat → Nat)
    (self : CSCStubResolutionValidation σ) (e : Event) (es : EventSetup)
    (hb : Booked self) (hv : ∀ t ∈ selected self e, vertexSlot t < e.sim_vertices.length)
    (hk : KeysInRange c (eventTrace M self e es)) :
    analyze M c self e es =
      .ok (addSamples
        { self with
          cscStubMatcher_ := matcherAfter M e.sim_vertices (selected self e)
            (M.init e es self.cscStubMatcher_)
          logError := self.logError ++
            (if e.clcts.isSome then [] else [cannotGetCLCTs self.inputTag_]) }
        (fun k => hitCount c (eventTrace M self e es) (k.val + 1))) := by
  have hg : ∀ (m : σ) (l : List String),
      isSimTrackGood ({ self with cscStubMatcher_ := m, logError := l }) = isSimTrackGood self :=
    fun _ _ => rfl
  unfold analyze
  simp only
  cases hc : e.clcts.isSome
  all_goals
    simp only [if_true, if_false, Bool.false_eq_true, hg]
    rw [show List.filter (isSimTrackGood self) e.sim_tracks = selected self e from rfl]
    split
    · rename_i hempty
      have hnil : selected self e = [] := List.isEmpty_iff.mp hempty
      simp only [eventTrace, hnil, matcherAfter, matchTrace, hitCount, List.countP_nil,
        addSamples_zero, List.append_nil]
    · refine Eq.trans (trackLoop_ok M c e.sim_vertices (selected self e) _ ?_ ?_ ?_) ?_
      · exact hb
      · exact hv
      · exact hk
      · simp only [eventTrace, List.append_nil]

theorem analyze_ok {σ : Type} (M : CSCStubMatcher σ) (c : Nat → Nat)
    (self : CSCStubResolutionValidation σ) (e : Event) (es : EventSetup)
    (hb : Booked self) (hv : VerticesValid e) (hk : KeysInRange c (eventTrace M self e es)) :
    analyze M c self e es =
      .ok (addSamples
        { self with
          cscStubMatcher_ := matcherAfter M e.sim_vertices (selected self e)
            (M.init e es self.cscStubMatcher_)
          logError := self.logError ++
            (if e.clcts.isSome then [] else [cannotGetCLCTs self.inputTag_]) }
        (fun k => hitCount c (eventTrace M self e es) (k.val + 1))) :=
  analyze_ok_of_slots M c self e es hb (vertexSlot_lt_of_good self e hv) hk

theorem matchTrace_map_fst {σ : Type} (M : CSCStubMatcher σ) (sim_vert : List SimVertex) :
    ∀ (ts : List SimTrack) (m : σ), (∀ t ∈ ts, vertexSlot t < sim_vert.length) →
      (matchTrace M sim_vert ts m).map Prod.fst = ts := by
  intro ts
  induction ts with
  | nil => intro m _; rfl
  | cons t rest ih =>
    intro m hv
    have hlt : vertexSlot t < sim_vert.length := hv t (List.mem_cons_self _ _)
    have hget : sim_vert[vertexSlot t]? = some sim_vert[vertexSlot t] :=
      List.getElem?_eq_getElem hlt
    simp only [matchTrace, hget, List.map_cons]
    rw [ih _ (fun u hu => hv u (List.mem_cons_of_mem _ hu))]

theorem samples_map_fillMany (o : Option MonitorElement) (n : Nat) (h : o.isSome = true) :
    samples (o.map (fillMany n)) = samples o ++ List.replicate n 0 := by
  obtain ⟨me, rfl⟩ := Option.isSome_iff_exists.mp h
  rfl

theorem analyze_unfold {σ : Type} (M : CSCStubMatcher σ) (c : Nat → Nat)
    (self : CSCStubResolutionValidation σ) (e : Event) (es : EventSetup) :
    analyze M c self e es =
      if (selected self e).isEmpty then .ok (afterInit M self e es)
      else trackLoop M c e.sim_vertices (selected self e) (afterInit M self e es) := by
  have hg : ∀ (m : σ) (l : List String),
      isSimTrackGood ({ self with cscStubMatcher_ := m, logError := l }) = isSimTrackGood self :=
    fun _ _ => rfl
  unfold analyze afterInit
  simp only
  cases hc : e.clcts.isSome
  all_goals
    simp only [if_true, if_false, Bool.false_eq_true, hg, List.append_nil]
    rfl

theorem selected_eq_nil {σ : Type} (self : CSCStubResolutionValidation σ) (e : Event)
    (h : ∀ t ∈ e.sim_tracks, isSimTrackGood self t = false) : selected self e = [] := by
  unfold selected
  rw [List.filter_eq_nil_iff]
  intro t ht
  simp [h t ht]

theorem analyze_of_none_selected {σ : Type} (M : CSCStubMatcher σ) (c : Nat → Nat)
    (self : CSCStubResolutionValidation σ) (e : Event) (es : EventSetup)
    (h : ∀ t ∈ e.sim_tracks, isSimTrackGood self t = false) :
    analyze M c self e es = .ok (afterInit M self e es) := by
  rw [analyze_unfold, selected_eq_nil self e h]
  rfl

theorem not_good_of_excluded {σ : Type} (self : CSCStubResolutionValidation σ) (t : SimTrack)
    (h : ExcludedNarrowed self t) : isSimTrackGood self t = false := by
  rw [← Bool.not_eq_true, isSimTrackGood_iff]
  rintro ⟨h1, _, _, h4, h5, h6⟩
  rcases h with h | h | h | h
  · exact h1 h
  · rw [h] at h4; cases h4
  · rw [h] at h6; cases h6
  · rw [h] at h5; cases h5

theorem demoMuon_good_of {σ : Type} (s : CSCStubResolutionValidation σ)
    (h1 : s.simTrackMinPt_ = Fp.fin 3) (h2 : s.simTrackMinEta_ = Fp.fin (9 / 10))
    (h3 : s.simTrackMaxEta_ = Fp.fin (12 / 5)) : isSimTrackGood s (demoMuon (3 / 2)) = true := by
  have hn : narrowedAbsEta (demoMuon (3 / 2)) = Fp.fin (3 / 2) := by
    simp only [narrowedAbsEta, demoMuon, Fp.abs, Fp.toFloat]
    rw [abs_of_nonneg (by norm_num), narrow_three_halves]
  rw [isSimTrackGood_iff, h1, h2, h3, hn]
  norm_num [demoMuon, Fp.lt]

theorem demoMuon_good :
    isSimTrackGood (demoValidation (12 / 5)) (demoMuon (3 / 2)) = true :=
  demoMuon_good_of _ rfl rfl rfl

theorem demoMuon_excluded_of {σ : Type} (s : CSCStubResolutionValidation σ)
    (h3 : s.simTrackMaxEta_ = Fp.fin (12 / 5)) : ExcludedNarrowed s (demoMuon (13 / 5)) := by
  have hn : narrowedAbsEta (demoMuon (13 / 5)) = Fp.fin (5452595 / 2097152) := by
    simp only [narrowedAbsEta, demoMuon, Fp.abs, Fp.toFloat]
    rw [abs_of_nonneg (by norm_num), narrow_thirteen_fifths]
  right; right; right
  rw [h3, hn]
  norm_num [Fp.lt]

theorem demo_selected (valid : Bool) :
    selected (demoValidation (12 / 5)) (demoEvent [demoMuon (3 / 2)] valid)
      = [demoMuon (3 / 2)] := by
  simp [selected, demoEvent, List.filter, demoMuon_good]

theorem demo_booked (maxEta : ℚ) : Booked (demoValidation maxEta) :=
  fun _ => ⟨rfl, rfl, rfl⟩

theorem demo_verticesValid (valid : Bool) :
    VerticesValid (demoEvent [demoMuon (3 / 2)] valid) := by
  intro t ht _
  simp only [demoEvent, List.mem_singleton] at ht
  subst ht
  simp [demoEvent, demoMuon]

theorem demo_eventTrace (r : MatchResult) (valid : Bool) :
    eventTrace (constMatcher r) (demoValidation (12 / 5))
      (demoEvent [demoMuon (3 / 2)] valid) demoSetup = [(demoMuon (3 / 2), r)] := by
  rw [eventTrace, demo_selected]
  rfl

theorem fillLoop_no_hit {σ : Type} (self : CSCStubResolutionValidation σ) :
    ∀ is : List Nat, (∀ i ∈ is, i < 10) →
      fillLoop is (List.replicate 10 false) self = .ok self := by
  intro is
  induction is with
  | nil => intro _; rfl
  | cons i rest ih =>
    intro h
    have hi : i < 10 := h i (List.mem_cons_self _ _)
    have hget : (List.replicate 10 false)[i]? = some false := by
      rw [List.getElem?_replicate, if_pos hi]
    simp only [fillLoop, hget]
    exact ih (fun j hj => h j (List.mem_cons_of_mem _ hj))

theorem trackLoop_of_empty_results {σ : Type} (M : CSCStubMatcher σ) (c : Nat → Nat)
    (sim_vert : List SimVertex) :
    ∀ (ts : List SimTrack) (self : CSCStubResolutionValidation σ),
      (∀ t ∈ ts, vertexSlot t < sim_vert.length) →
      (∀ tr ∈ matchTrace M sim_vert ts self.cscStubMatcher_, tr.2 = []) →
      trackLoop M c sim_vert ts self =
        .ok { self with cscStubMatcher_ := matcherAfter M sim_vert ts self.cscStubMatcher_ } := by
  intro ts
  induction ts with
  | nil => intro self _ _; rfl
  | cons t rest ih =>
    intro self hv he
    have hlt : vertexSlot t < sim_vert.length := hv t (List.mem_cons_self _ _)
    have hget : sim_vert[vertexSlot t]? = some sim_vert[vertexSlot t] :=
      List.getElem?_eq_getElem hlt
    simp only [matchTrace, hget] at he
    have h0 : M.clcts (M.match_ t sim_vert[vertexSlot t] self.cscStubMatcher_) = [] :=
      he (t, _) (List.mem_cons_self _ _)
    simp only [trackLoop, matcherAfter, hget, h0, hitLoop]
    rw [fillLoop_no_hit _ (List.range 10) (fun i hi => List.mem_range.mp hi)]
    simp only
    refine Eq.trans (ih _ (fun u hu => hv u (List.mem_cons_of_mem _ hu)) ?_) rfl
    exact fun tr htr => he tr (List.mem_cons_of_mem _ htr)

theorem hitLoop_error (c : Nat → Nat) (r : MatchResult) :
    ∀ hit : List Bool, hit.length = 10 →
      (∀ p ∈ r, c p.1 < 2 ^ 32) →
      (∃ p ∈ r, ¬ (1 ≤ c p.1 ∧ c p.1 ≤ 10)) →
      ∃ idx, 10 ≤ idx ∧ hitLoop c r hit = .error (.hitFlagOutOfRange idx) := by
  induction r with
  | nil =>
    intro hit _ _ hbad
    obtain ⟨p, hp, _⟩ := hbad
    exact absurd hp (List.not_mem_nil p)
  | cons q rest ih =>
    intro hit hl hsmall hbad
    obtain ⟨id, ct⟩ := q
    have hq : c id < 2 ^ 32 := hsmall (id, ct) (List.mem_cons_self _ _)
    by_cases hin : 1 ≤ c id ∧ c id ≤ 10
    · have hidx : (c id % 2 ^ 32 + 2 ^ 32 - 1) % 2 ^ 32 = c id - 1 := by omega
      have hrest : ∃ p ∈ rest, ¬ (1 ≤ c p.1 ∧ c p.1 ≤ 10) := by
        obtain ⟨p, hp, hpbad⟩ := hbad
        rcases List.mem_cons.mp hp with rfl | hp1
        · exact absurd hin hpbad
        · exact ⟨p, hp1, hpbad⟩
      obtain ⟨idx, h10, herr⟩ := ih (hit.set (c id - 1) true) (by simpa using hl)
        (fun p hp => hsmall p (List.mem_cons_of_mem _ hp)) hrest
      refine ⟨idx, h10, ?_⟩
      simp only [hitLoop, hidx]
      rw [if_pos (by omega)]
      exact herr
    · refine ⟨(c id % 2 ^ 32 + 2 ^ 32 - 1) % 2 ^ 32, by omega, ?_⟩
      simp only [hitLoop]
      rw [if_neg (by omega)]

theorem trackLoop_error {σ : Type} (M : CSCStubMatcher σ) (c : Nat → Nat)
    (sim_vert : List SimVertex) :
    ∀ (ts : List SimTrack) (self : CSCStubResolutionValidation σ), Booked self →
      (∀ t ∈ ts, vertexSlot t < sim_vert.length) →
      (∀ tr ∈ matchTrace M sim_vert ts self.cscStubMatcher_, ∀ p ∈ tr.2, c p.1 < 2 ^ 32) →
      (∃ tr ∈ matchTrace M sim_vert ts self.cscStubMatcher_,
        ∃ p ∈ tr.2, ¬ (1 ≤ c p.1 ∧ c p.1 ≤ 10)) →
      ∃ idx, 10 ≤ idx ∧ trackLoop M c sim_vert ts self = .error (.hitFlagOutOfRange idx) := by
  intro ts
  induction ts with
  | nil =>
    intro self _ _ _ hbad
    obtain ⟨tr, htr, _⟩ := hbad
    exact absurd htr (List.not_mem_nil tr)
  | cons t rest ih =>
    intro self hb hv hsmall hbad
    have hlt : vertexSlot t < sim_vert.length := hv t (List.mem_cons_self _ _)
    have hget : sim_vert[vertexSlot t]? = some sim_vert[vertexSlot t] :=
      List.getElem?_eq_getElem hlt
    simp only [matchTrace, hget] at hsmall hbad
    by_cases hin : ∀ p ∈ M.clcts (M.match_ t sim_vert[vertexSlot t] self.cscStubMatcher_),
        1 ≤ c p.1 ∧ c p.1 ≤ 10
    · obtain ⟨hit1, h1, h2, -⟩ := hitLoop_ok c _ (List.replicate 10 false) (by simp) hin
      have hb1 : Booked ({ self with
          cscStubMatcher_ := M.match_ t sim_vert[vertexSlot t] self.cscStubMatcher_ }
          : CSCStubResolutionValidation σ) := hb
      have hrest : ∃ tr ∈ matchTrace M sim_vert rest
          (M.match_ t sim_vert[vertexSlot t] self.cscStubMatcher_),
          ∃ p ∈ tr.2, ¬ (1 ≤ c p.1 ∧ c p.1 ≤ 10) := by
        obtain ⟨tr, htr, p, hp, hpbad⟩ := hbad
        rcases List.mem_cons.mp htr with rfl | htr1
        · exact absurd (hin p hp) hpbad
        · exact ⟨tr, htr1, p, hp, hpbad⟩
      obtain ⟨idx, h10, herr⟩ := ih
        (addSamples ({ self with
          cscStubMatcher_ := M.match_ t sim_vert[vertexSlot t] self.cscStubMatcher_ }
          : CSCStubResolutionValidation σ)
          (fun k => if k.val ∈ List.range 10 ∧ hit1[k.val]?.getD false = true then 1 else 0))
        (booked_addSamples _ _ hb1) (fun u hu => hv u (List.mem_cons_of_mem _ hu))
        (fun tr htr => hsmall tr (List.mem_cons_of_mem _ htr)) hrest
      refine ⟨idx, h10, ?_⟩
      simp only [trackLoop, hget, h1]
      rw [fillLoop_ok hit1 (List.range 10) _ (List.nodup_range 10)
        (fun i hi => List.mem_range.mp hi) h2 hb1]
      exact herr
    · obtain ⟨idx, h10, herr⟩ := hitLoop_error c
        (M.clcts (M.match_ t sim_vert[vertexSlot t] self.cscStubMatcher_))
        (List.replicate 10 false) (by simp)
        (hsmall (t, _) (List.mem_cons_self _ _))
        (by
          by_contra hno
          apply hin
          intro p hp
          by_contra hpbad
          exact hno ⟨p, hp, hpbad⟩)
      refine ⟨idx, h10, ?_⟩
      simp only [trackLoop, hget, herr]

theorem demo_analyze (r : MatchResult) (valid : Bool)
    (hr : ∀ p ∈ r, 1 ≤ demoChamberType p.1 ∧ demoChamberType p.1 ≤ 10) :
    ∃ self1, analyze (constMatcher r) demoChamberType (demoValidation (12 / 5))
        (demoEvent [demoMuon (3 / 2)] valid) demoSetup = .ok self1 ∧
      self1.logError = (if valid then [] else [cannotGetCLCTs "simCscTriggerPrimitiveDigis"]) ∧
      ∀ k : Fin 10,
        samples (self1.posresCLCT_hs k)
          = List.replicate (if hitsType demoChamberType r (k.val + 1) then 1 else 0) 0 ∧
        samples (self1.posresCLCT_qs k)
          = List.replicate (if hitsType demoChamberType r (k.val + 1) then 1 else 0) 0 ∧
        samples (self1.posresCLCT_es k)
          = List.replicate (if hitsType demoChamberType r (k.val + 1) then 1 else 0) 0 := by
  have hk : KeysInRange demoChamberType (eventTrace (constMatcher r) (demoValidation (12 / 5))
      (demoEvent [demoMuon (3 / 2)] valid) demoSetup) := by
    rw [demo_eventTrace]
    intro tr htr
    simp only [List.mem_singleton] at htr
    subst htr
    exact hr
  refine ⟨_, analyze_ok _ _ _ _ _ (demo_booked _) (demo_verticesValid valid) hk, ?_, ?_⟩
  · cases valid <;> rfl
  · intro k
    have hcount : hitCount demoChamberType (eventTrace (constMatcher r)
        (demoValidation (12 / 5)) (demoEvent [demoMuon (3 / 2)] valid) demoSetup) (k.val + 1)
        = if hitsType demoChamberType r (k.val + 1) then 1 else 0 := by
      rw [demo_eventTrace]
      simp [hitCount, List.countP_cons]
    simp only [addSamples, hcount]
    exact ⟨rfl, rfl, rfl⟩

theorem binsExtend_refl {σ : Type} (self : CSCStubResolutionValidation σ) :
    BinsExtend self self :=
  fun _ => ⟨⟨[], List.append_nil _⟩, ⟨[], List.append_nil _⟩, ⟨[], List.append_nil _⟩⟩

theorem binsExtend_trans {σ : Type} {a b d : CSCStubResolutionValidation σ}
    (h1 : BinsExtend a b) (h2 : BinsExtend b d) : BinsExtend a d := by
  intro k
  obtain ⟨⟨t1, e1⟩, ⟨t2, e2⟩, ⟨t3, e3⟩⟩ := h1 k
  obtain ⟨⟨u1, f1⟩, ⟨u2, f2⟩, ⟨u3, f3⟩⟩ := h2 k
  refine ⟨⟨t1 ++ u1, ?_⟩, ⟨t2 ++ u2, ?_⟩, ⟨t3 ++ u3, ?_⟩⟩
  · rw [← List.append_assoc, e1, f1]
  · rw [← List.append_assoc, e2, f2]
  · rw [← List.append_assoc, e3, f3]

theorem fillSlot_extends (arr arr1 : Fin 10 → Option MonitorElement) (i : Nat) (x : ℚ)
    (h : fillSlot arr i x = .ok arr1) (k : Fin 10) :
    samples (arr k) <+: samples (arr1 k) := by
  unfold fillSlot at h
  split at h
  · rename_i hi
    split at h
    · rename_i me hme
      injection h with h
      subst h
      by_cases hk : k = ⟨i, hi⟩
      · subst hk
        rw [hme, Function.update_same]
        exact ⟨[x], rfl⟩
      · rw [Function.update_noteq hk]
    · cases h
  · cases h

theorem fillLoop_extends {σ : Type} (hit : List Bool) :
    ∀ (is : List Nat) (self self1 : CSCStubResolutionValidation σ),
      fillLoop is hit self = .ok self1 → BinsExtend self self1 := by
  intro is
  induction is with
  | nil =>
    intro self self1 h
    injection h with h
    subst h
    exact binsExtend_refl self
  | cons i rest ih =>
    intro self self1 h
    unfold fillLoop at h
    split at h
    · cases h
    · exact ih _ _ h
    · split at h
      · cases h
      · rename_i hs hhs
        split at h
        · cases h
        · rename_i qs hqs
          split at h
          · cases h
          · rename_i es hes
            refine binsExtend_trans ?_ (ih _ _ h)
            intro k
            exact ⟨fillSlot_extends _ _ _ _ hhs k, fillSlot_extends _ _ _ _ hqs k,
              fillSlot_extends _ _ _ _ hes k⟩

theorem trackLoop_extends {σ : Type} (M : CSCStubMatcher σ) (c : Nat → Nat)
    (sim_vert : List SimVertex) :
    ∀ (ts : List SimTrack) (self self1 : CSCStubResolutionValidation σ),
      trackLoop M c sim_vert ts self = .ok self1 → BinsExtend self self1 := by
  intro ts
  induction ts with
  | nil =>
    intro self self1 h
    injection h with h
    subst h
    exact binsExtend_refl self
  | cons t rest ih =>
    intro self self1 h
    unfold trackLoop at h
    simp only at h
    split at h
    · cases h
    · split at h
      · cases h
      · split at h
        · cases h
        · rename_i self2 hfill
          have hx : BinsExtend self self2 := fun k => fillLoop_extends _ _ _ _ hfill k
          exact binsExtend_trans hx (ih _ _ h)

theorem analyze_extends {σ : Type} (M : CSCStubMatcher σ) (c : Nat → Nat)
    (self self1 : CSCStubResolutionValidation σ) (e : Event) (es : EventSetup)
    (h : analyze M c self e es = .ok self1) : BinsExtend self self1 := by
  rw [analyze_unfold] at h
  split at h
  · injection h with h
    subst h
    exact binsExtend_refl self
  · exact trackLoop_extends M c e.sim_vertices _ (afterInit M self e es) self1 h

theorem analyzeEvents_extends {σ : Type} (M : CSCStubMatcher σ) (c : Nat → Nat) :
    ∀ (evs : List (Event × EventSetup)) (self self1 : CSCStubResolutionValidation σ),
      analyzeEvents M c evs self = .ok self1 → BinsExtend self self1 := by
  intro evs
  induction evs with
  | nil =>
    intro self self1 h
    injection h with h
    subst h
    exact binsExtend_refl self
  | cons ev rest ih =>
    intro self self1 h
    obtain ⟨e, es⟩ := ev
    unfold analyzeEvents at h
    split at h
    · cases h
    · rename_i self2 h2
      exact binsExtend_trans (analyze_extends M c _ _ e es h2) (ih _ _ h)

theorem fillSlot_cases (arr : Fin 10 → Option MonitorElement) (i : Nat) (x : ℚ)
    (hi : i < 10) :
    (∃ arr1, fillSlot arr i x = .ok arr1) ∨ fillSlot arr i x = .error (.nullHistogram i) := by
  unfold fillSlot
  rw [dif_pos hi]
  cases arr ⟨i, hi⟩ with
  | none => exact Or.inr rfl
  | some me => exact Or.inl ⟨_, rfl⟩

theorem fillLoop_cases {σ : Type} (hit : List Bool) (hl : hit.length = 10) :
    ∀ (is : List Nat) (self : CSCStubResolutionValidation σ), (∀ i ∈ is, i < 10) →
      (∃ self1, fillLoop is hit self = .ok self1 ∧
          self1.cscStubMatcher_ = self.cscStubMatcher_) ∨
        ∃ i, i < 10 ∧ fillLoop is hit self = .error (.nullHistogram i) := by
  intro is
  induction is with
  | nil => intro self _; exact Or.inl ⟨self, rfl, rfl⟩
  | cons i rest ih =>
    intro self h
    have hi : i < 10 := h i (List.mem_cons_self _ _)
    have hrest : ∀ j ∈ rest, j < 10 := fun j hj => h j (List.mem_cons_of_mem _ hj)
    have hget : hit[i]? = some hit[i] := List.getElem?_eq_getElem (by omega)
    cases hv : hit[i] with
    | false =>
      rw [hv] at hget
      simp only [fillLoop, hget]
      exact ih self hrest
    | true =>
      rw [hv] at hget
      simp only [fillLoop, hget]
      rcases fillSlot_cases self.posresCLCT_hs i 0 hi with ⟨hs, hhs⟩ | hhs
      · rcases fillSlot_cases self.posresCLCT_qs i 0 hi with ⟨qs, hqs⟩ | hqs
        · rcases fillSlot_cases self.posresCLCT_es i 0 hi with ⟨es, hes⟩ | hes
          · simp only [hhs, hqs, hes]
            exact ih _ hrest
          · simp only [hhs, hqs, hes]
            exact Or.inr ⟨i, hi, rfl⟩
        · simp only [hhs, hqs]
          exact Or.inr ⟨i, hi, rfl⟩
      · simp only [hhs]
        exact Or.inr ⟨i, hi, rfl⟩

theorem trackLoop_cases {σ : Type} (M : CSCStubMatcher σ) (c : Nat → Nat)
    (sim_vert : List SimVertex) :
    ∀ (ts : List SimTrack) (self : CSCStubResolutionValidation σ),
      (∀ t ∈ ts, vertexSlot t < sim_vert.length) →
      KeysInRange c (matchTrace M sim_vert ts self.cscStubMatcher_) →
      (∃ self1, trackLoop M c sim_vert ts self = .ok self1) ∨
        ∃ i, i < 10 ∧ trackLoop M c sim_vert ts self = .error (.nullHistogram i) := by
  intro ts
  induction ts with
  | nil => intro self _ _; exact Or.inl ⟨self, rfl⟩
  | cons t rest ih =>
    intro self hv hk
    have hlt : vertexSlot t < sim_vert.length := hv t (List.mem_cons_self _ _)
    have hget : sim_vert[vertexSlot t]? = some sim_vert[vertexSlot t] :=
      List.getElem?_eq_getElem hlt
    simp only [matchTrace, hget] at hk
    obtain ⟨hit1, h1, h2, -⟩ := hitLoop_ok c
      (M.clcts (M.match_ t sim_vert[vertexSlot t] self.cscStubMatcher_))
      (List.replicate 10 false) (by simp)
      (hk (t, _) (List.mem_cons_self _ _))
    simp only [trackLoop, hget, h1]
    rcases fillLoop_cases hit1 h2 (List.range 10)
      ({ self with cscStubMatcher_ := M.match_ t sim_vert[vertexSlot t] self.cscStubMatcher_ }
        : CSCStubResolutionValidation σ)
      (fun i hi => List.mem_range.mp hi) with ⟨self2, hf, hm⟩ | ⟨i, hi, hf⟩
    · simp only [hf]
      refine ih self2 (fun u hu => hv u (List.mem_cons_of_mem _ hu)) ?_
      rw [hm]
      exact fun tr htr => hk tr (List.mem_cons_of_mem _ htr)
    · simp only [hf]
      exact Or.inr ⟨i, hi, rfl⟩

theorem demo_eventTrace_of {σ : Type} (M : CSCStubMatcher σ) (s : CSCStubResolutionValidation σ)
    (h1 : s.simTrackMinPt_ = Fp.fin 3) (h2 : s.simTrackMinEta_ = Fp.fin (9 / 10))
    (h3 : s.simTrackMaxEta_ = Fp.fin (12 / 5)) (valid : Bool) :
    selected s (demoEvent [demoMuon (3 / 2)] valid) = [demoMuon (3 / 2)] ∧
    eventTrace M s (demoEvent [demoMuon (3 / 2)] valid) demoSetup =
      [(demoMuon (3 / 2), M.clcts (M.match_ (demoMuon (3 / 2)) { x := 0, y := 0, z := 0 }
        (M.init (demoEvent [demoMuon (3 / 2)] valid) demoSetup s.cscStubMatcher_)))] := by
  have hsel : selected s (demoEvent [demoMuon (3 / 2)] valid) = [demoMuon (3 / 2)] := by
    simp [selected, demoEvent, List.filter, demoMuon_good_of s h1 h2 h3]
  refine ⟨hsel, ?_⟩
  rw [eventTrace, hsel]
  rfl

theorem demo_step (s : CSCStubResolutionValidation Unit)
    (h1 : s.simTrackMinPt_ = Fp.fin 3) (h2 : s.simTrackMinEta_ = Fp.fin (9 / 10))
    (h3 : s.simTrackMaxEta_ = Fp.fin (12 / 5)) (hb : Booked s) (r : MatchResult) (valid : Bool)
    (hr : ∀ p ∈ r, 1 ≤ demoChamberType p.1 ∧ demoChamberType p.1 ≤ 10) :
    ∃ s1, analyze (constMatcher r) demoChamberType s
        (demoEvent [demoMuon (3 / 2)] valid) demoSetup = .ok s1 ∧
      s1.simTrackMinPt_ = Fp.fin 3 ∧ s1.simTrackMinEta_ = Fp.fin (9 / 10) ∧
      s1.simTrackMaxEta_ = Fp.fin (12 / 5) ∧ Booked s1 := by
  have hk : KeysInRange demoChamberType (eventTrace (constMatcher r) s
      (demoEvent [demoMuon (3 / 2)] valid) demoSetup) := by
    rw [(demo_eventTrace_of (constMatcher r) s h1 h2 h3 valid).2]
    intro tr htr
    simp only [List.mem_singleton] at htr
    subst htr
    exact hr
  exact ⟨_, analyze_ok _ _ _ _ _ hb (demo_verticesValid valid) hk, h1, h2, h3,
    booked_addSamples _ _ hb⟩

theorem fillLoop_matcher {σ : Type} (hit : List Bool) :
    ∀ (is : List Nat) (self self1 : CSCStubResolutionValidation σ),
      fillLoop is hit self = .ok self1 → self1.cscStubMatcher_ = self.cscStubMatcher_ := by
  intro is
  induction is with
  | nil =>
    intro self self1 h
    injection h with h
    subst h
    rfl
  | cons i rest ih =>
    intro self self1 h
    unfold fillLoop at h
    split at h
    · cases h
    · exact ih _ _ h
    · split at h
      · cases h
      · split at h
        · cases h
        · split at h
          · cases h
          · have h3 := ih _ _ h
            exact h3

theorem trackLoop_matcher {σ : Type} (M : CSCStubMatcher σ) (c : Nat → Nat)
    (sim_vert : List SimVertex) :
    ∀ (ts : List SimTrack) (self self1 : CSCStubResolutionValidation σ),
      trackLoop M c sim_vert ts self = .ok self1 →
      self1.cscStubMatcher_ = matcherAfter M sim_vert ts self.cscStubMatcher_ ∧
        ∀ t ∈ ts, vertexSlot t < sim_vert.length := by
  intro ts
  induction ts with
  | nil =>
    intro self self1 h
    injection h with h
    subst h
    exact ⟨rfl, fun t ht => absurd ht (List.not_mem_nil t)⟩
  | cons t rest ih =>
    intro self self1 h
    unfold trackLoop at h
    simp only at h
    split at h
    · cases h
    · rename_i v hv
      have hlt : vertexSlot t < sim_vert.length := by
        by_contra hge
        rw [List.getElem?_eq_none (Nat.le_of_not_lt hge)] at hv
        cases hv
      split at h
      · cases h
      · split at h
        · cases h
        · rename_i self2 hfill
          obtain ⟨hm, hr⟩ := ih _ _ h
          have hm2 := fillLoop_matcher _ _ _ _ hfill
          refine ⟨?_, ?_⟩
          · simp only [matcherAfter, hv]
            rw [hm, hm2]
          · intro u hu
            rcases List.mem_cons.mp hu with rfl | hu1
            · exact hlt
            · exact hr u hu1

theorem fillLoop_logError {σ : Type} (hit : List Bool) :
    ∀ (is : List Nat) (self self1 : CSCStubResolutionValidation σ),
      fillLoop is hit self = .ok self1 → self1.logError = self.logError := by
  intro is
  induction is with
  | nil =>
    intro self self1 h
    injection h with h
    subst h
    rfl
  | cons i rest ih =>
    intro self self1 h
    unfold fillLoop at h
    split at h
    · cases h
    · exact ih _ _ h
    · split at h
      · cases h
      · split at h
        · cases h
        · split at h
          · cases h
          · have h3 := ih _ _ h
            exact h3

theorem trackLoop_logError {σ : Type} (M : CSCStubMatcher σ) (c : Nat → Nat)
    (sim_vert : List SimVertex) :
    ∀ (ts : List SimTrack) (self self1 : CSCStubResolutionValidation σ),
      trackLoop M c sim_vert ts self = .ok self1 → self1.logError = self.logError := by
  intro ts
  induction ts with
  | nil =>
    intro self self1 h
    injection h with h
    subst h
    rfl
  | cons t rest ih =>
    intro self self1 h
    unfold trackLoop at h
    simp only at h
    split at h
    · cases h
    · split at h
      · cases h
      · split at h
        · cases h
        · rename_i self2 hfill
          rw [ih _ _ h, fillLoop_logError _ _ _ _ hfill]

theorem matchCalls_cons (sim_vert : List SimVertex) (t : SimTrack) (ts : List SimTrack)
    (v : SimVertex) (h : sim_vert[vertexSlot t]? = some v) :
    matchCalls sim_vert (t :: ts) = MatcherCall.match_ t v :: matchCalls sim_vert ts := by
  simp [matchCalls, List.filterMap_cons, h]

theorem matchCalls_forall2 (sim_vert : List SimVertex) :
    ∀ ts : List SimTrack, (∀ t ∈ ts, vertexSlot t < sim_vert.length) →
      List.Forall₂
        (fun t call => ∃ v, sim_vert[vertexSlot t]? = some v ∧ call = MatcherCall.match_ t v)
        ts (matchCalls sim_vert ts) := by
  intro ts
  induction ts with
  | nil => intro _; exact List.Forall₂.nil
  | cons t rest ih =>
    intro hv
    have hlt : vertexSlot t < sim_vert.length := hv t (List.mem_cons_self _ _)
    have hget : sim_vert[vertexSlot t]? = some sim_vert[vertexSlot t] :=
      List.getElem?_eq_getElem hlt
    rw [matchCalls_cons sim_vert t rest _ hget]
    exact List.Forall₂.cons ⟨_, hget, rfl⟩ (ih (fun u hu => hv u (List.mem_cons_of_mem _ hu)))

theorem matcherAfter_recording (result : List MatcherCall → MatchResult)
    (sim_vert : List SimVertex) :
    ∀ (ts : List SimTrack) (m : List MatcherCall),
      (∀ t ∈ ts, vertexSlot t < sim_vert.length) →
      matcherAfter (recordingMatcher result) sim_vert ts m = m ++ matchCalls sim_vert ts := by
  intro ts
  induction ts with
  | nil => intro m _; simp [matcherAfter, matchCalls]
  | cons t rest ih =>
    intro m hv
    have hlt : vertexSlot t < sim_vert.length := hv t (List.mem_cons_self _ _)
    have hget : sim_vert[vertexSlot t]? = some sim_vert[vertexSlot t] :=
      List.getElem?_eq_getElem hlt
    rw [matchCalls_cons sim_vert t rest _ hget]
    simp only [matcherAfter, hget]
    rw [ih _ (fun u hu => hv u (List.mem_cons_of_mem _ hu))]
    simp [recordingMatcher]

theorem matchTrace_recording (result : List MatcherCall → MatchResult)
    (sim_vert : List SimVertex) :
    ∀ (ts : List SimTrack) (m : List MatcherCall) (i : Nat),
      (∀ t ∈ ts, vertexSlot t < sim_vert.length) →
      (matchTrace (recordingMatcher result) sim_vert ts m)[i]? =
        (ts[i]?).map (fun t => (t, result (m ++ matchCalls sim_vert (ts.take (i + 1))))) := by
  intro ts
  induction ts with
  | nil => intro m i _; simp [matchTrace]
  | cons t rest ih =>
    intro m i hv
    have hlt : vertexSlot t < sim_vert.length := hv t (List.mem_cons_self _ _)
    have hget : sim_vert[vertexSlot t]? = some sim_vert[vertexSlot t] :=
      List.getElem?_eq_getElem hlt
    simp only [matchTrace, hget, List.take_succ_cons]
    rw [matchCalls_cons sim_vert t _ _ hget]
    cases i with
    | zero => simp [matchCalls, recordingMatcher]
    | succ j =>
      simp only [List.getElem?_cons_succ]
      rw [ih _ j (fun u hu => hv u (List.mem_cons_of_mem _ hu))]
      simp [recordingMatcher]

theorem storeSlot_ok (arr : Fin 10 → Option MonitorElement) (j : Nat) (me : MonitorElement)
    (hj : j < 10) :
    ∃ arr1, storeSlot arr j me = .ok arr1 ∧
      ∀ k : Fin 10, arr1 k = if k.val = j then some me else arr k := by
  refine ⟨Function.update arr ⟨j, hj⟩ (some me), ?_, ?_⟩
  · unfold storeSlot
    rw [dif_pos hj]
  · intro k
    by_cases hk : k = ⟨j, hj⟩
    · subst hk
      simp
    · have hne : ¬ k.val = j := fun h => hk (Fin.ext h)
      rw [Function.update_noteq hk, if_neg hne]

theorem bookOne_ok {σ : Type} (cn : Nat → String) (i : Nat) (h1 : 1 ≤ i) (h10 : i ≤ 10)
    (self : CSCStubResolutionValidation σ) (b : IBooker) :
    ∃ self1 b1, bookOne cn i (self, b) = .ok (self1, b1) ∧
      b1.currentFolder = b.currentFolder ∧
      b1.booked = b.booked ++ bookedTriple cn b.currentFolder i ∧
      ∀ k : Fin 10,
        self1.posresCLCT_hs k = (if k.val + 1 = i
          then some (bookedHistogram b.currentFolder "CLCTPosRes_hs_" (cn i))
          else self.posresCLCT_hs k) ∧
        self1.posresCLCT_qs k = (if k.val + 1 = i
          then some (bookedHistogram b.currentFolder "CLCTPosRes_qs_" (cn i))
          else self.posresCLCT_qs k) ∧
        self1.posresCLCT_es k = (if k.val + 1 = i
          then some (bookedHistogram b.currentFolder "CLCTPosRes_es_" (cn i))
          else self.posresCLCT_es k) := by
  have hj : i - 1 < 10 := by omega
  obtain ⟨hs, ehs, phs⟩ := storeSlot_ok self.posresCLCT_hs (i - 1)
    (bookedHistogram b.currentFolder "CLCTPosRes_hs_" (cn i)) hj
  obtain ⟨qs, eqs, pqs⟩ := storeSlot_ok self.posresCLCT_qs (i - 1)
    (bookedHistogram b.currentFolder "CLCTPosRes_qs_" (cn i)) hj
  obtain ⟨es, ees, pes⟩ := storeSlot_ok self.posresCLCT_es (i - 1)
    (bookedHistogram b.currentFolder "CLCTPosRes_es_" (cn i)) hj
  have hiff : ∀ k : Fin 10, (k.val = i - 1) ↔ (k.val + 1 = i) := by
    intro k; omega
  refine ⟨{ self with posresCLCT_hs := hs, posresCLCT_qs := qs, posresCLCT_es := es },
    { b with booked := b.booked ++ bookedTriple cn b.currentFolder i }, ?_, rfl, rfl, ?_⟩
  · simp only [bookOne, IBooker.book1D]
    simp only [bookedHistogram] at ehs eqs ees
    rw [ehs]
    simp only
    rw [eqs]
    simp only
    rw [ees]
    simp [bookedTriple, bookedHistogram]
  · intro k
    refine ⟨?_, ?_, ?_⟩
    · show hs k = _
      rw [phs k]; simp only [hiff k]
    · show qs k = _
      rw [pqs k]; simp only [hiff k]
    · show es k = _
      rw [pes k]; simp only [hiff k]

theorem bookLoop_ok {σ : Type} (cn : Nat → String) :
    ∀ (is : List Nat) (self : CSCStubResolutionValidation σ) (b : IBooker),
      (∀ i ∈ is, 1 ≤ i ∧ i ≤ 10) →
      ∃ self1 b1, bookLoop cn is (self, b) = .ok (self1, b1) ∧
        b1.currentFolder = b.currentFolder ∧
        b1.booked = b.booked ++ is.flatMap (bookedTriple cn b.currentFolder) ∧
        ∀ k : Fin 10,
          self1.posresCLCT_hs k = (if k.val + 1 ∈ is
            then some (bookedHistogram b.currentFolder "CLCTPosRes_hs_" (cn (k.val + 1)))
            else self.posresCLCT_hs k) ∧
          self1.posresCLCT_qs k = (if k.val + 1 ∈ is
            then some (bookedHistogram b.currentFolder "CLCTPosRes_qs_" (cn (k.val + 1)))
            else self.posresCLCT_qs k) ∧
          self1.posresCLCT_es k = (if k.val + 1 ∈ is
            then some (bookedHistogram b.currentFolder "CLCTPosRes_es_" (cn (k.val + 1)))
            else self.posresCLCT_es k) := by
  intro is
  induction is with
  | nil =>
    intro self b _
    exact ⟨self, b, rfl, rfl, by simp, fun k => by simp⟩
  | cons i rest ih =>
    intro self b h
    obtain ⟨h1, h10⟩ := h i (List.mem_cons_self _ _)
    obtain ⟨s1, b1, e1, f1, k1, p1⟩ := bookOne_ok cn i h1 h10 self b
    obtain ⟨s2, b2, e2, f2, k2, p2⟩ := ih s1 b1 (fun j hj => h j (List.mem_cons_of_mem _ hj))
    refine ⟨s2, b2, ?_, ?_, ?_, ?_⟩
    · simp only [bookLoop, e1]
      exact e2
    · rw [f2, f1]
    · rw [k2, k1, f1, List.flatMap_cons, List.append_assoc]
    · intro k
      obtain ⟨a1, a2, a3⟩ := p1 k
      obtain ⟨c1, c2, c3⟩ := p2 k
      rw [c1, c2, c3, a1, a2, a3, f1]
      by_cases hr : k.val + 1 ∈ rest
      · simp [hr]
      · by_cases hi : k.val + 1 = i
        · simp [hi]
        · have hi2 : ¬ i = k.val + 1 := fun h => hi h.symm
          simp [hr, hi, hi2]

theorem tag_append_cancel (tag a b : String) (h : tag ++ a = tag ++ b) : a = b := by
  have hd := congrArg String.data h
  rw [String.data_append, String.data_append] at hd
  exact String.ext (List.append_cancel_left hd)

theorem tag_append_ne (t1 t2 a b : String) (hlen : t1.data.length = t2.data.length)
    (hne : t1 ≠ t2) : t1 ++ a ≠ t2 ++ b := by
  intro h
  have hd := congrArg String.data h
  rw [String.data_append, String.data_append] at hd
  exact hne (String.ext (List.append_inj hd hlen).1)

theorem bookedTriple_names_nodup (cn : Nat → String) (folder : String)
    (hinj : ∀ i j, 1 ≤ i → i ≤ 10 → 1 ≤ j → j ≤ 10 → cn i = cn j → i = j) :
    (((List.range' 1 10).flatMap (bookedTriple cn folder)).map (fun me => me.name)).Nodup := by
  have d1 : ∀ a b : String, "CLCTPosRes_hs_" ++ a ≠ "CLCTPosRes_qs_" ++ b :=
    fun a b => tag_append_ne _ _ a b rfl (by decide)
  have d2 : ∀ a b : String, "CLCTPosRes_hs_" ++ a ≠ "CLCTPosRes_es_" ++ b :=
    fun a b => tag_append_ne _ _ a b rfl (by decide)
  have d3 : ∀ a b : String, "CLCTPosRes_qs_" ++ a ≠ "CLCTPosRes_es_" ++ b :=
    fun a b => tag_append_ne _ _ a b rfl (by decide)
  rw [List.map_flatMap, List.nodup_flatMap]
  constructor
  · intro i _
    simp only [bookedTriple, bookedHistogram, List.map_cons, List.map_nil]
    refine List.nodup_cons.mpr ⟨?_, List.nodup_cons.mpr ⟨?_, List.nodup_singleton _⟩⟩
    · intro hmem
      simp only [List.mem_cons, List.mem_singleton, List.not_mem_nil, or_false] at hmem
      rcases hmem with h | h
      · exact d1 _ _ h
      · exact d2 _ _ h
    · intro hmem
      simp only [List.mem_singleton] at hmem
      exact d3 _ _ hmem
  · refine (List.nodup_range' 1 10).pairwise_of_forall_ne ?_
    intro i hi j hj hij
    have hi2 := List.mem_range'_1.mp hi
    have hj2 := List.mem_range'_1.mp hj
    have hcn : cn i ≠ cn j := fun h =>
      hij (hinj i j hi2.1 (by omega) hj2.1 (by omega) h)
    show List.Disjoint _ _
    rw [List.disjoint_left]
    intro x hx hx2
    simp only [bookedTriple, bookedHistogram, List.map_cons, List.map_nil, List.mem_cons,
      List.mem_singleton, List.not_mem_nil, or_false] at hx hx2
    rcases hx with rfl | rfl | rfl <;> rcases hx2 with h | h | h
    · exact hcn (tag_append_cancel _ _ _ h)
    · exact d1 _ _ h
    · exact d2 _ _ h
    · exact d1 _ _ h.symm
    · exact hcn (tag_append_cancel _ _ _ h)
    · exact d3 _ _ h
    · exact d2 _ _ h.symm
    · exact d3 _ _ h.symm
    · exact hcn (tag_append_cancel _ _ _ h)

theorem single_analyze (s : CSCStubResolutionValidation Unit) (hb : Booked s) (t : SimTrack)
    (hg : isSimTrackGood s t = true) (hvi : t.vertIndex = 0) (r : MatchResult) (valid : Bool)
    (hr : ∀ p ∈ r, 1 ≤ demoChamberType p.1 ∧ demoChamberType p.1 ≤ 10) :
    ∃ self1, analyze (constMatcher r) demoChamberType s (demoEvent [t] valid) demoSetup
        = .ok self1 ∧
      self1.logError = s.logError ++ (if valid then [] else [cannotGetCLCTs s.inputTag_]) ∧
      ∀ k : Fin 10,
        samples (self1.posresCLCT_hs k) = samples (s.posresCLCT_hs k) ++
          List.replicate (if hitsType demoChamberType r (k.val + 1) then 1 else 0) 0 ∧
        samples (self1.posresCLCT_qs k) = samples (s.posresCLCT_qs k) ++
          List.replicate (if hitsType demoChamberType r (k.val + 1) then 1 else 0) 0 ∧
        samples (self1.posresCLCT_es k) = samples (s.posresCLCT_es k) ++
          List.replicate (if hitsType demoChamberType r (k.val + 1) then 1 else 0) 0 := by
  have hsel : selected s (demoEvent [t] valid) = [t] := by
    simp [selected, demoEvent, List.filter, hg]
  have hslot : vertexSlot t = 0 := by
    unfold vertexSlot
    rw [hvi]
    rfl
  have htrace : eventTrace (constMatcher r) s (demoEvent [t] valid) demoSetup = [(t, r)] := by
    rw [eventTrace, hsel]
    simp [matchTrace, hslot, demoEvent, constMatcher]
  have hv : VerticesValid (demoEvent [t] valid) := by
    intro u hu _
    simp only [demoEvent, List.mem_singleton] at hu
    subst hu
    simp [demoEvent, hvi]
  have hk : KeysInRange demoChamberType
      (eventTrace (constMatcher r) s (demoEvent [t] valid) demoSetup) := by
    rw [htrace]
    intro tr htr
    simp only [List.mem_singleton] at htr
    subst htr
    exact hr
  refine ⟨_, analyze_ok _ _ _ _ _ hb hv hk, ?_, ?_⟩
  · cases valid <;> rfl
  · intro k
    have hcount : hitCount demoChamberType (eventTrace (constMatcher r) s
        (demoEvent [t] valid) demoSetup) (k.val + 1)
        = if hitsType demoChamberType r (k.val + 1) then 1 else 0 := by
      rw [htrace]
      simp [hitCount, List.countP_cons]
    rw [← hcount]
    exact ⟨samples_map_fillMany _ _ (hb k).1, samples_map_fillMany _ _ (hb k).2.1,
      samples_map_fillMany _ _ (hb k).2.2⟩

theorem vertexSlot_eq_toNat (t : SimTrack) (n : Nat) (h0 : 0 ≤ t.vertIndex)
    (h1 : t.vertIndex < n) (hn : n < 2 ^ 64) : vertexSlot t = t.vertIndex.toNat := by
  unfold vertexSlot
  rw [Int.emod_eq_of_lt h0 (by omega)]

theorem matchCalls_forall2_index (sim_vert : List SimVertex) (hn : sim_vert.length < 2 ^ 64) :
    ∀ ts : List SimTrack, (∀ t ∈ ts, 0 ≤ t.vertIndex ∧ t.vertIndex < sim_vert.length) →
      List.Forall₂
        (fun t call => 0 ≤ t.vertIndex ∧
          ∃ v, sim_vert[t.vertIndex.toNat]? = some v ∧ call = MatcherCall.match_ t v)
        ts (matchCalls sim_vert ts) := by
  intro ts
  induction ts with
  | nil => intro _; exact List.Forall₂.nil
  | cons t rest ih =>
    intro hv
    obtain ⟨h0, h1⟩ := hv t (List.mem_cons_self _ _)
    have hslot := vertexSlot_eq_toNat t sim_vert.length h0 h1 hn
    have hlt : vertexSlot t < sim_vert.length := by rw [hslot]; omega
    have hget : sim_vert[vertexSlot t]? = some sim_vert[vertexSlot t] :=
      List.getElem?_eq_getElem hlt
    rw [matchCalls_cons sim_vert t rest _ hget]
    refine List.Forall₂.cons ⟨h0, _, ?_, rfl⟩ (ih (fun u hu => hv u (List.mem_cons_of_mem _ hu)))
    rw [← hslot]
    exact hget

theorem matchCalls_take (sim_vert : List SimVertex) :
    ∀ (ts : List SimTrack) (n : Nat), (∀ t ∈ ts, vertexSlot t < sim_vert.length) →
      matchCalls sim_vert (ts.take n) = (matchCalls sim_vert ts).take n := by
  intro ts
  induction ts with
  | nil => intro n _; simp [matchCalls]
  | cons t rest ih =>
    intro n hv
    have hlt : vertexSlot t < sim_vert.length := hv t (List.mem_cons_self _ _)
    have hget : sim_vert[vertexSlot t]? = some sim_vert[vertexSlot t] :=
      List.getElem?_eq_getElem hlt
    cases n with
    | zero => simp [matchCalls]
    | succ m =>
      rw [List.take_succ_cons, matchCalls_cons sim_vert t _ _ hget,
        matchCalls_cons sim_vert t _ _ hget, List.take_succ_cons,
        ih m (fun u hu => hv u (List.mem_cons_of_mem _ hu))]

/-! ## Eligibility -/

/-- C2 (as stated, refuted): with window `[0.9, 2.5]` and minimum transverse momentum `3.0`,
the muon with transverse momentum `5.0` and pseudorapidity exactly `2.5 = maxEta`, a vertex
and a generator link is accepted by `isSimTrackGood`, although its absolute pseudorapidity is
not below `maxEta`. -/
theorem C2_maxEta_is_accepted :
    isSimTrackGood (demoValidation (5 / 2)) (demoMuon (5 / 2)) = true ∧
      Fp.abs (demoMuon (5 / 2)).eta = (demoValidation (5 / 2)).simTrackMaxEta_ ∧
      ¬ (isSimTrackGood (demoValidation (5 / 2)) (demoMuon (5 / 2)) = true ↔
          (demoMuon (5 / 2)).vertIndex ≠ -1 ∧ (demoMuon (5 / 2)).genpartIndex ≠ -1 ∧
            |(demoMuon (5 / 2)).type| = 13 ∧
            Fp.le (demoValidation (5 / 2)).simTrackMinPt_ (demoMuon (5 / 2)).pt = true ∧
            Fp.le (demoValidation (5 / 2)).simTrackMinEta_
              (Fp.abs (demoMuon (5 / 2)).eta) = true ∧
            Fp.lt (Fp.abs (demoMuon (5 / 2)).eta)
              (demoValidation (5 / 2)).simTrackMaxEta_ = true) := by
  have hn : narrowedAbsEta (demoMuon (5 / 2)) = Fp.fin (5 / 2) := by
    simp only [narrowedAbsEta, demoMuon, Fp.abs, Fp.toFloat]
    rw [abs_of_nonneg (by norm_num), narrow_five_halves]
  have hgood : isSimTrackGood (demoValidation (5 / 2)) (demoMuon (5 / 2)) = true := by
    rw [isSimTrackGood_iff, hn]
    norm_num [demoValidation, demoMuon, Fp.lt]
  have heta : Fp.abs (demoMuon (5 / 2)).eta = (demoValidation (5 / 2)).simTrackMaxEta_ := by
    simp only [demoMuon, demoValidation, Fp.abs]
    rw [abs_of_nonneg (by norm_num)]
  refine ⟨hgood, heta, ?_⟩
  intro h
  have h6 := (h.mp hgood).2.2.2.2.2
  rw [heta] at h6
  simp [demoValidation, Fp.lt] at h6

/-- C2 (amended): `isSimTrackGood` returns eligible if and only if the vertex reference is not
the sentinel, there is a generator link, the absolute particle-type code is 13, the
transverse momentum is not below the minimum (it is at least the minimum, or one of the two
is NaN), and the absolute pseudorapidity narrowed to single precision, which is the value the
code compares, is neither below `minEta` nor above `maxEta` (it lies in the window taken
inclusive at both ends, or a compared value is NaN). -/
theorem C2_isSimTrackGood_iff_inclusive {σ : Type} (self : CSCStubResolutionValidation σ)
    (t : SimTrack) :
    isSimTrackGood self t = true ↔
      t.vertIndex ≠ -1 ∧ t.genpartIndex ≠ -1 ∧ |t.type| = 13 ∧
        (Fp.le self.simTrackMinPt_ t.pt = true ∨ Unordered t.pt self.simTrackMinPt_) ∧
        (Fp.le self.simTrackMinEta_ (narrowedAbsEta t) = true ∨
          Unordered (narrowedAbsEta t) self.simTrackMinEta_) ∧
        (Fp.le (narrowedAbsEta t) self.simTrackMaxEta_ = true ∨
          Unordered self.simTrackMaxEta_ (narrowedAbsEta t)) := by
  rw [isSimTrackGood_iff, Fp.lt_eq_false_iff, Fp.lt_eq_false_iff, Fp.lt_eq_false_iff]
  constructor
  · rintro ⟨h1, h2, h3, h4, h5, h6⟩
    exact ⟨h1, h2, h3, h4, h6, h5⟩
  · rintro ⟨h1, h2, h3, h4, h5, h6⟩
    exact ⟨h1, h2, h3, h4, h6, h5⟩

/-- C2 (witness): a muon inside the window whose transverse momentum is NaN is eligible: no
comparison with the minimum rejects it. -/
theorem C2_isSimTrackGood_iff_inclusive_witness :
    Unordered demoNaNMuon.pt (demoValidation (12 / 5)).simTrackMinPt_ ∧
      isSimTrackGood (demoValidation (12 / 5)) demoNaNMuon = true := by
  have hn : narrowedAbsEta demoNaNMuon = Fp.fin (3 / 2) := by
    simp only [narrowedAbsEta, demoNaNMuon, Fp.abs, Fp.toFloat]
    rw [abs_of_nonneg (by norm_num), narrow_three_halves]
  refine ⟨Or.inl rfl, (C2_isSimTrackGood_iff_inclusive _ _).mpr ?_⟩
  rw [hn]
  refine ⟨by decide, by decide, by decide, Or.inr (Or.inl rfl), Or.inl ?_, Or.inl ?_⟩
  · norm_num [demoValidation, Fp.le]
  · norm_num [demoValidation, Fp.le]

/-- C3 (as stated, refuted): with window `[0.9, 2.5]`, the muon whose pseudorapidity is the
`double` next above `2.5`, namely `2.5 + 2^-51`, has an absolute pseudorapidity strictly above
`maxEta`, yet `isSimTrackGood` accepts it, because the value it compares is the narrowing to
single precision, `2.5`; the event holding it adds a sample to the type-3 bins. -/
theorem C3_narrowing_accepts_eta_above_max :
    Excluded (demoValidation (5 / 2)) (demoMuon (5 / 2 + 1 / 2 ^ 51)) ∧
      isSimTrackGood (demoValidation (5 / 2)) (demoMuon (5 / 2 + 1 / 2 ^ 51)) = true ∧
      samples ((demoValidation (5 / 2)).posresCLCT_hs 2) = [] ∧
      ∃ self1, analyze (constMatcher [(3, [demoStub])]) demoChamberType
          (demoValidation (5 / 2)) (demoEvent [demoMuon (5 / 2 + 1 / 2 ^ 51)] true) demoSetup
          = .ok self1 ∧
        samples (self1.posresCLCT_hs 2) = [0] := by
  have hx : Excluded (demoValidation (5 / 2)) (demoMuon (5 / 2 + 1 / 2 ^ 51)) := by
    right; right; right
    simp only [demoValidation, demoMuon, Fp.abs, Fp.lt]
    rw [abs_of_nonneg (by norm_num)]
    norm_num
  have hn : narrowedAbsEta (demoMuon (5 / 2 + 1 / 2 ^ 51)) = Fp.fin (5 / 2) := by
    simp only [narrowedAbsEta, demoMuon, Fp.abs, Fp.toFloat]
    rw [abs_of_nonneg (by norm_num), narrow_above_five_halves]
  have hgood : isSimTrackGood (demoValidation (5 / 2)) (demoMuon (5 / 2 + 1 / 2 ^ 51))
      = true := by
    rw [isSimTrackGood_iff, hn]
    norm_num [demoValidation, demoMuon, Fp.lt]
  obtain ⟨self1, hok, -, hbins⟩ := single_analyze (demoValidation (5 / 2)) (demo_booked _)
    (demoMuon (5 / 2 + 1 / 2 ^ 51)) hgood rfl [(3, [demoStub])] true (by decide)
  exact ⟨hx, hgood, rfl, self1, hok, (hbins 2).1⟩

/-- C3 (amended): a truth particle with no vertex reference, or transverse momentum strictly
below the minimum, or absolute pseudorapidity, as narrowed to single precision by the code,
strictly below `minEta` or strictly above `maxEta`, is ineligible whatever its other fields;
and on an event made only of such particles `analyze` completes and leaves all thirty bins
as they were. -/
theorem C3_excluded_is_ineligible {σ : Type} (M : CSCStubMatcher σ) (c : Nat → Nat)
    (self : CSCStubResolutionValidation σ) (t : SimTrack) (e : Event) (es : EventSetup)
    (ht : ExcludedNarrowed self t) (he : ∀ u ∈ e.sim_tracks, ExcludedNarrowed self u) :
    isSimTrackGood self t = false ∧
      ∃ self1, analyze M c self e es = .ok self1 ∧ BinsUnchanged self self1 := by
  refine ⟨not_good_of_excluded self t ht, afterInit M self e es, ?_, rfl, rfl, rfl⟩
  exact analyze_of_none_selected M c self e es
    (fun u hu => not_good_of_excluded self u (he u hu))

/-- C3 (witness): the muon with transverse momentum `5.0` and pseudorapidity `2.6` under window
`[0.9, 2.4]` is ineligible (its narrowed pseudorapidity `5452595 / 2097152` is above `2.4`),
and the event holding it leaves every bin untouched, also when the matcher would return a
stub for it. -/
theorem C3_excluded_is_ineligible_witness :
    ExcludedNarrowed (demoValidation (12 / 5)) (demoMuon (13 / 5)) ∧
      isSimTrackGood (demoValidation (12 / 5)) (demoMuon (13 / 5)) = false ∧
      ∃ self1, analyze (constMatcher [(3, [demoStub])]) demoChamberType
          (demoValidation (12 / 5)) (demoEvent [demoMuon (13 / 5)] true) demoSetup = .ok self1 ∧
        BinsUnchanged (demoValidation (12 / 5)) self1 := by
  have hx : ExcludedNarrowed (demoValidation (12 / 5)) (demoMuon (13 / 5)) :=
    demoMuon_excluded_of _ rfl
  exact ⟨hx, C3_excluded_is_ineligible (constMatcher [(3, [demoStub])]) demoChamberType
    (demoValidation (12 / 5)) (demoMuon (13 / 5)) (demoEvent [demoMuon (13 / 5)] true) demoSetup
    hx (by intro u hu; simp only [demoEvent, List.mem_singleton] at hu; rw [hu]; exact hx)⟩

/-! ## Events without eligible particles -/

/-- C7: when no truth particle of the event passes `isSimTrackGood` (in particular when the
truth collection is empty), `analyze` completes; the matcher has received its `init` call and
no `match` call, and the thirty bins are exactly what they were. -/
theorem C7_no_selection_is_noop {σ : Type} (M : CSCStubMatcher σ) (c : Nat → Nat)
    (self : CSCStubResolutionValidation σ) (e : Event) (es : EventSetup)
    (h : ∀ t ∈ e.sim_tracks, isSimTrackGood self t = false) :
    ∃ self1, analyze M c self e es = .ok self1 ∧
      self1.cscStubMatcher_ = M.init e es self.cscStubMatcher_ ∧
      BinsUnchanged self self1 :=
  ⟨afterInit M self e es, analyze_of_none_selected M c self e es h, rfl, rfl, rfl, rfl⟩

/-- C7 (witness): on an event with an empty truth collection, a matcher that records its calls
ends with the single call `init`, and the bins are unchanged. -/
theorem C7_no_selection_is_noop_witness :
    (∀ t ∈ (demoEvent [] true).sim_tracks, isSimTrackGood demoRecording t = false) ∧
      ∃ self1, analyze (recordingMatcher demoResult) demoChamberType demoRecording
          (demoEvent [] true) demoSetup = .ok self1 ∧
        self1.cscStubMatcher_ = [MatcherCall.init (demoEvent [] true) demoSetup] ∧
        BinsUnchanged demoRecording self1 :=
  ⟨by intro t ht; simp [demoEvent] at ht,
   C7_no_selection_is_noop (recordingMatcher demoResult) demoChamberType
    demoRecording (demoEvent [] true) demoSetup (by intro t ht; simp [demoEvent] at ht)⟩

/-! ## Accumulation -/

/-- C1: on an event whose selected particles have valid vertex indices and whose match-result
keys classify into `[1,10]`, with all bins booked, `analyze` completes and, for every detector
type `k` in `1..10`, each of the three bins of type `k` receives exactly as many samples as
there are eligible particles whose own match result has a key of type `k`; one sample per
particle and type however many stubs or detector elements of that type the result holds;
every added sample is `0`. -/
theorem C1_one_sample_per_particle_and_type {σ : Type} (M : CSCStubMatcher σ) (c : Nat → Nat)
    (self : CSCStubResolutionValidation σ) (e : Event) (es : EventSetup)
    (hb : Booked self) (hv : VerticesValid e) (hk : KeysInRange c (eventTrace M self e es)) :
    ∃ self1, analyze M c self e es = .ok self1 ∧
      (eventTrace M self e es).map Prod.fst = selected self e ∧
      ∀ k : Fin 10,
        samples (self1.posresCLCT_hs k) = samples (self.posresCLCT_hs k) ++
          List.replicate (hitCount c (eventTrace M self e es) (k.val + 1)) 0 ∧
        samples (self1.posresCLCT_qs k) = samples (self.posresCLCT_qs k) ++
          List.replicate (hitCount c (eventTrace M self e es) (k.val + 1)) 0 ∧
        samples (self1.posresCLCT_es k) = samples (self.posresCLCT_es k) ++
          List.replicate (hitCount c (eventTrace M self e es) (k.val + 1)) 0 := by
  refine ⟨_, analyze_ok M c self e es hb hv hk, ?_, ?_⟩
  · exact matchTrace_map_fst M e.sim_vertices _ _ (vertexSlot_lt_of_good self e hv)
  · intro k
    exact ⟨samples_map_fillMany _ _ (hb k).1, samples_map_fillMany _ _ (hb k).2.1,
      samples_map_fillMany _ _ (hb k).2.2⟩

/-- C1 (witness): one eligible muon (transverse momentum `5.0`, pseudorapidity `1.5`, window
`[0.9, 2.4]`, minimum `3.0`) whose match result holds two stubs in a detector element of type 3
and a second detector element of type 3 adds exactly one sample `0` to each of the three type-3
bins and nothing to any other bin. -/
theorem C1_one_sample_per_particle_and_type_witness :
    isSimTrackGood (demoValidation (12 / 5)) (demoMuon (3 / 2)) = true ∧
      ∃ self1, analyze (constMatcher [(3, [demoStub, demoStub]), (19, [demoStub])])
          demoChamberType (demoValidation (12 / 5)) (demoEvent [demoMuon (3 / 2)] true)
          demoSetup = .ok self1 ∧
        ∀ k : Fin 10,
          samples (self1.posresCLCT_hs k) = (if k.val + 1 = 3 then [0] else []) ∧
          samples (self1.posresCLCT_qs k) = (if k.val + 1 = 3 then [0] else []) ∧
          samples (self1.posresCLCT_es k) = (if k.val + 1 = 3 then [0] else []) := by
  refine ⟨demoMuon_good, ?_⟩
  obtain ⟨self1, hok, -, hbins⟩ := C1_one_sample_per_particle_and_type
    (constMatcher [(3, [demoStub, demoStub]), (19, [demoStub])]) demoChamberType
    (demoValidation (12 / 5)) (demoEvent [demoMuon (3 / 2)] true) demoSetup
    (demo_booked _) (demo_verticesValid _)
    (by
      rw [demo_eventTrace]
      intro tr htr p hp
      simp only [List.mem_singleton] at htr
      subst htr
      simp only [List.mem_cons, List.mem_singleton, List.not_mem_nil, or_false] at hp
      rcases hp with rfl | rfl <;> decide)
  refine ⟨self1, hok, ?_⟩
  intro k
  have hcount : hitCount demoChamberType
      (eventTrace (constMatcher [(3, [demoStub, demoStub]), (19, [demoStub])])
        (demoValidation (12 / 5)) (demoEvent [demoMuon (3 / 2)] true) demoSetup) (k.val + 1)
      = if k.val + 1 = 3 then 1 else 0 := by
    rw [demo_eventTrace]
    have hk : k.val < 10 := k.isLt
    by_cases h3 : k.val = 2
    · simp [hitCount, hitsType, demoChamberType, List.countP_cons, h3]
    · have e1 : ((3 : Nat) == k.val + 1) = false := by rw [beq_eq_false_iff_ne]; omega
      simp [hitCount, hitsType, demoChamberType, List.countP_cons, h3, e1]
  obtain ⟨h1, h2, h3⟩ := hbins k
  rw [hcount] at h1 h2 h3
  rw [h1, h2, h3]
  split <;> simp [samples, demoValidation, demoHistogram]

/-! ## Invalid inputs -/

/-- C4 (as stated, refuted): on an event whose CLCT handle is invalid, holding one eligible
muon for which the matcher returns a stub of type 3, `analyze` logs its diagnostic and then
still adds one sample to each of the three type-3 bins, which were empty. -/
theorem C4_invalid_clcts_still_fills :
    (demoEvent [demoMuon (3 / 2)] false).clcts = none ∧
      isSimTrackGood (demoValidation (12 / 5)) (demoMuon (3 / 2)) = true ∧
      samples ((demoValidation (12 / 5)).posresCLCT_hs 2) = [] ∧
      ∃ self1, analyze (constMatcher [(3, [demoStub])]) demoChamberType
          (demoValidation (12 / 5)) (demoEvent [demoMuon (3 / 2)] false) demoSetup = .ok self1 ∧
        self1.logError = [cannotGetCLCTs "simCscTriggerPrimitiveDigis"] ∧
        samples (self1.posresCLCT_hs 2) = [0] ∧
        samples (self1.posresCLCT_qs 2) = [0] ∧
        samples (self1.posresCLCT_es 2) = [0] := by
  refine ⟨rfl, demoMuon_good, rfl, ?_⟩
  obtain ⟨self1, hok, hlog, hbins⟩ := demo_analyze [(3, [demoStub])] false (by decide)
  obtain ⟨h1, h2, h3⟩ := hbins 2
  exact ⟨self1, hok, hlog, h1, h2, h3⟩

/-- C4 (amended): on an event whose CLCT handle is invalid, `analyze` emits exactly one
diagnostic for the event, not one per particle, and does not skip the event. With booked
bins, valid vertex references and keys classifying into `[1,10]` it completes, and each bin
of type `k` gains one sample per eligible particle whose match result has a key of type
`k`, as it does for a valid handle. So bins stay unchanged only when the match results say
so: when the matcher returns an empty match result for every eligible particle, `analyze`
completes and leaves every bin unchanged. -/
theorem C4_invalid_clcts_logs_once {σ : Type} (M : CSCStubMatcher σ) (c : Nat → Nat)
    (self : CSCStubResolutionValidation σ) (e : Event) (es : EventSetup)
    (hinv : e.clcts = none) :
    (∀ self1, analyze M c self e es = .ok self1 →
        self1.logError = self.logError ++ [cannotGetCLCTs self.inputTag_]) ∧
      (Booked self → VerticesValid e → KeysInRange c (eventTrace M self e es) →
        ∃ self1, analyze M c self e es = .ok self1 ∧
          self1.logError = self.logError ++ [cannotGetCLCTs self.inputTag_] ∧
          ∀ k : Fin 10,
            samples (self1.posresCLCT_hs k) = samples (self.posresCLCT_hs k) ++
              List.replicate (hitCount c (eventTrace M self e es) (k.val + 1)) 0 ∧
            samples (self1.posresCLCT_qs k) = samples (self.posresCLCT_qs k) ++
              List.replicate (hitCount c (eventTrace M self e es) (k.val + 1)) 0 ∧
            samples (self1.posresCLCT_es k) = samples (self.posresCLCT_es k) ++
              List.replicate (hitCount c (eventTrace M self e es) (k.val + 1)) 0) ∧
      (VerticesValid e → (∀ tr ∈ eventTrace M self e es, tr.2 = []) →
        ∃ self1, analyze M c self e es = .ok self1 ∧ BinsUnchanged self self1) := by
  have hlog : (afterInit M self e es).logError
      = self.logError ++ [cannotGetCLCTs self.inputTag_] := by
    simp [afterInit, hinv]
  have hfirst : ∀ self1, analyze M c self e es = .ok self1 →
      self1.logError = self.logError ++ [cannotGetCLCTs self.inputTag_] := by
    intro self1 h
    rw [analyze_unfold] at h
    split at h
    · injection h with h
      subst h
      exact hlog
    · rw [trackLoop_logError M c e.sim_vertices _ _ _ h, hlog]
  refine ⟨hfirst, ?_, ?_⟩
  · intro hb hv hk
    have hok := analyze_ok M c self e es hb hv hk
    refine ⟨_, hok, hfirst _ hok, ?_⟩
    intro k
    exact ⟨samples_map_fillMany _ _ (hb k).1, samples_map_fillMany _ _ (hb k).2.1,
      samples_map_fillMany _ _ (hb k).2.2⟩
  · intro hv hempty
    rw [analyze_unfold]
    split
    · exact ⟨_, rfl, rfl, rfl, rfl⟩
    · rw [trackLoop_of_empty_results M c e.sim_vertices (selected self e)
        (afterInit M self e es) (vertexSlot_lt_of_good self e hv) hempty]
      exact ⟨_, rfl, rfl, rfl, rfl⟩

/-- C4 (witness): invalid CLCT handle, one eligible muon, a matcher returning two detector
elements of type 5: `analyze` completes with the single diagnostic, and each of the three
type-5 bins gains exactly one sample, the other bins none. -/
theorem C4_invalid_clcts_logs_once_witness :
    (demoEvent [demoMuon (3 / 2)] false).clcts = none ∧
      ∃ self1, analyze (constMatcher [(5, [demoStub]), (21, [demoStub])]) demoChamberType
          (demoValidation (12 / 5)) (demoEvent [demoMuon (3 / 2)] false) demoSetup = .ok self1 ∧
        self1.logError = [cannotGetCLCTs "simCscTriggerPrimitiveDigis"] ∧
        ∀ k : Fin 10,
          samples (self1.posresCLCT_hs k) = (if k.val + 1 = 5 then [0] else []) ∧
          samples (self1.posresCLCT_qs k) = (if k.val + 1 = 5 then [0] else []) ∧
          samples (self1.posresCLCT_es k) = (if k.val + 1 = 5 then [0] else []) := by
  have hk : KeysInRange demoChamberType
      (eventTrace (constMatcher [(5, [demoStub]), (21, [demoStub])]) (demoValidation (12 / 5))
        (demoEvent [demoMuon (3 / 2)] false) demoSetup) := by
    rw [demo_eventTrace]
    intro tr htr p hp
    simp only [List.mem_singleton] at htr
    subst htr
    simp only [List.mem_cons, List.mem_singleton, List.not_mem_nil, or_false] at hp
    rcases hp with rfl | rfl <;> decide
  obtain ⟨self1, hok, hlog, hbins⟩ :=
    (C4_invalid_clcts_logs_once (constMatcher [(5, [demoStub]), (21, [demoStub])])
      demoChamberType (demoValidation (12 / 5)) (demoEvent [demoMuon (3 / 2)] false) demoSetup
      rfl).2.1 (demo_booked _) (demo_verticesValid false) hk
  refine ⟨rfl, self1, hok, hlog, ?_⟩
  intro k
  have hcount : hitCount demoChamberType
      (eventTrace (constMatcher [(5, [demoStub]), (21, [demoStub])])
        (demoValidation (12 / 5)) (demoEvent [demoMuon (3 / 2)] false) demoSetup) (k.val + 1)
      = if k.val + 1 = 5 then 1 else 0 := by
    rw [demo_eventTrace]
    have hk10 : k.val < 10 := k.isLt
    by_cases h5 : k.val = 4
    · simp [hitCount, hitsType, demoChamberType, List.countP_cons, h5]
    · have e1 : ((5 : Nat) == k.val + 1) = false := by rw [beq_eq_false_iff_ne]; omega
      simp [hitCount, hitsType, demoChamberType, List.countP_cons, h5, e1]
  obtain ⟨h1, h2, h3⟩ := hbins k
  rw [hcount] at h1 h2 h3
  rw [h1, h2, h3]
  split <;> simp [samples, demoValidation, demoHistogram]

/-- C5 (as stated, refuted): when the match result of an eligible muon has a key classifying
to type 11, respectively type 0, `analyze` makes no check and reaches the write
`hitCLCT[chamberType - 1]` at index 10, respectively 4294967295, outside the ten flags. -/
theorem C5_unclassified_key_writes_outside_flags :
    demoChamberType 11 = 11 ∧ demoChamberType 16 = 0 ∧
      analyze (constMatcher [(11, [demoStub])]) demoChamberType (demoValidation (12 / 5))
          (demoEvent [demoMuon (3 / 2)] true) demoSetup
        = .error (UndefinedBehaviour.hitFlagOutOfRange 10) ∧
      analyze (constMatcher [(16, [demoStub])]) demoChamberType (demoValidation (12 / 5))
          (demoEvent [demoMuon (3 / 2)] true) demoSetup
        = .error (UndefinedBehaviour.hitFlagOutOfRange 4294967295) := by
  refine ⟨rfl, rfl, ?_, ?_⟩
  · rw [analyze_unfold, demo_selected]
    rfl
  · rw [analyze_unfold, demo_selected]
    rfl

/-- C5 (amended): `analyze` does not check the classification. With all bins booked and valid
vertex references, if some key of an eligible particle's match result classifies outside
`[1,10]` (classification values being below `2^32`), `analyze` signals nothing: it reaches
the write `hitCLCT[chamberType - 1]` with an index of at least 10, outside the ten flags,
which is undefined behaviour. -/
theorem C5_no_classification_check {σ : Type} (M : CSCStubMatcher σ) (c : Nat → Nat)
    (self : CSCStubResolutionValidation σ) (e : Event) (es : EventSetup)
    (hb : Booked self) (hv : VerticesValid e)
    (hsmall : ∀ tr ∈ eventTrace M self e es, ∀ p ∈ tr.2, c p.1 < 2 ^ 32)
    (hbad : ∃ tr ∈ eventTrace M self e es, ∃ p ∈ tr.2, ¬ (1 ≤ c p.1 ∧ c p.1 ≤ 10)) :
    ∃ idx, 10 ≤ idx ∧
      analyze M c self e es = .error (UndefinedBehaviour.hitFlagOutOfRange idx) := by
  have hne : (selected self e).isEmpty = false := by
    obtain ⟨tr, htr, _⟩ := hbad
    cases hs : selected self e with
    | nil =>
      unfold eventTrace at htr
      rw [hs] at htr
      exact absurd htr (List.not_mem_nil tr)
    | cons a l => rfl
  rw [analyze_unfold, hne]
  exact trackLoop_error M c e.sim_vertices (selected self e) (afterInit M self e es) hb
    (vertexSlot_lt_of_good self e hv) hsmall hbad

/-- C5 (witness): an eligible muon whose match result has a key of type 11. -/
theorem C5_no_classification_check_witness :
    ∃ idx, 10 ≤ idx ∧
      analyze (constMatcher [(3, [demoStub]), (11, [demoStub])]) demoChamberType
          (demoValidation (12 / 5)) (demoEvent [demoMuon (3 / 2)] true) demoSetup
        = .error (UndefinedBehaviour.hitFlagOutOfRange idx) :=
  C5_no_classification_check (constMatcher [(3, [demoStub]), (11, [demoStub])])
    demoChamberType (demoValidation (12 / 5)) (demoEvent [demoMuon (3 / 2)] true) demoSetup
    (demo_booked _) (demo_verticesValid true)
    (by
      rw [demo_eventTrace]
      intro tr htr p hp
      simp only [List.mem_singleton] at htr
      subst htr
      simp only [List.mem_cons, List.mem_singleton, List.not_mem_nil, or_false] at hp
      rcases hp with rfl | rfl <;> decide)
    (by
      rw [demo_eventTrace]
      exact ⟨_, List.mem_singleton.mpr rfl, (11, [demoStub]), by simp, by decide⟩)

/-! ## Append-only accumulation -/

/-- C8: accumulation is append-only. Whenever `analyze` completes on an event, every bin
holds afterwards the samples it held before, in the same order, as an initial segment; the
same is true after any further sequence of events, and no bin's sample count decreases. -/
theorem C8_append_only {σ : Type} (M : CSCStubMatcher σ) (c : Nat → Nat)
    (self self1 self2 : CSCStubResolutionValidation σ) (e : Event) (es : EventSetup)
    (evs : List (Event × EventSetup))
    (h1 : analyze M c self e es = .ok self1)
    (h2 : analyzeEvents M c evs self1 = .ok self2) :
    BinsExtend self self1 ∧ BinsExtend self self2 ∧
      ∀ k : Fin 10,
        (samples (self.posresCLCT_hs k)).length ≤ (samples (self2.posresCLCT_hs k)).length ∧
        (samples (self.posresCLCT_qs k)).length ≤ (samples (self2.posresCLCT_qs k)).length ∧
        (samples (self.posresCLCT_es k)).length ≤ (samples (self2.posresCLCT_es k)).length := by
  have e1 := analyze_extends M c self self1 e es h1
  have e2 := binsExtend_trans e1 (analyzeEvents_extends M c evs self1 self2 h2)
  refine ⟨e1, e2, ?_⟩
  intro k
  obtain ⟨⟨t1, f1⟩, ⟨t2, f2⟩, ⟨t3, f3⟩⟩ := e2 k
  refine ⟨?_, ?_, ?_⟩
  · rw [← f1, List.length_append]; exact Nat.le_add_right _ _
  · rw [← f2, List.length_append]; exact Nat.le_add_right _ _
  · rw [← f3, List.length_append]; exact Nat.le_add_right _ _

/-- C8 (witness): two successive events, each with one eligible muon matched to a stub of
type 3, the second with an invalid CLCT handle. -/
theorem C8_append_only_witness :
    ∃ self1 self2,
      analyze (constMatcher [(3, [demoStub])]) demoChamberType (demoValidation (12 / 5))
        (demoEvent [demoMuon (3 / 2)] true) demoSetup = .ok self1 ∧
      analyzeEvents (constMatcher [(3, [demoStub])]) demoChamberType
        [(demoEvent [demoMuon (3 / 2)] false, demoSetup)] self1 = .ok self2 ∧
      BinsExtend (demoValidation (12 / 5)) self1 ∧ BinsExtend (demoValidation (12 / 5)) self2 ∧
      ∀ k : Fin 10,
        (samples ((demoValidation (12 / 5)).posresCLCT_hs k)).length
          ≤ (samples (self2.posresCLCT_hs k)).length ∧
        (samples ((demoValidation (12 / 5)).posresCLCT_qs k)).length
          ≤ (samples (self2.posresCLCT_qs k)).length ∧
        (samples ((demoValidation (12 / 5)).posresCLCT_es k)).length
          ≤ (samples (self2.posresCLCT_es k)).length := by
  obtain ⟨self1, h1, a1, a2, a3, hb1⟩ := demo_step (demoValidation (12 / 5)) rfl rfl rfl
    (demo_booked _) [(3, [demoStub])] true (by decide)
  obtain ⟨self2, h2, -⟩ := demo_step self1 a1 a2 a3 hb1 [(3, [demoStub])] false (by decide)
  have h3 : analyzeEvents (constMatcher [(3, [demoStub])]) demoChamberType
      [(demoEvent [demoMuon (3 / 2)] false, demoSetup)] self1 = .ok self2 := by
    simp only [analyzeEvents, h2]
  exact ⟨self1, self2, h1, h3, C8_append_only _ _ _ _ _ _ _ _ h1 h3⟩

/-! ## Indexing -/

/-- C10: when every non-sentinel vertex reference of the event is an index into the vertex
list and every match-result key classifies into `[1,10]`, no indexing fault of `analyze` is
reachable: every particle whose vertex is looked up has passed `isSimTrackGood`, has a
non-sentinel vertex reference and an index inside the vertex list; the only undefined
behaviour left is a histogram pointer that was never booked, at an index below 10; and with
all bins booked `analyze` completes. -/
theorem C10_no_index_fault {σ : Type} (M : CSCStubMatcher σ) (c : Nat → Nat)
    (self : CSCStubResolutionValidation σ) (e : Event) (es : EventSetup)
    (hv : VerticesValid e) (hk : KeysInRange c (eventTrace M self e es)) :
    (∀ t ∈ selected self e, isSimTrackGood self t = true ∧ t.vertIndex ≠ -1 ∧
        vertexSlot t < e.sim_vertices.length) ∧
      (∀ u, analyze M c self e es = .error u → ∃ i, i < 10 ∧ u = .nullHistogram i) ∧
      (Booked self → ∃ self1, analyze M c self e es = .ok self1) := by
  refine ⟨?_, ?_, ?_⟩
  · intro t ht
    have hgood := (List.mem_filter.mp ht).2
    exact ⟨hgood, ((isSimTrackGood_iff self t).mp hgood).1, vertexSlot_lt_of_good self e hv t ht⟩
  · intro u hu
    rw [analyze_unfold] at hu
    split at hu
    · cases hu
    · rcases trackLoop_cases M c e.sim_vertices (selected self e) (afterInit M self e es)
        (vertexSlot_lt_of_good self e hv) hk with ⟨self1, h1⟩ | ⟨i, hi, h1⟩
      · rw [h1] at hu
        cases hu
      · rw [h1] at hu
        injection hu with hu
        exact ⟨i, hi, hu.symm⟩
  · intro hb
    exact ⟨_, analyze_ok M c self e es hb hv hk⟩

/-- C10 (witness): one eligible muon with vertex index 0 and a stub of type 3, on an object
whose histograms were never booked: the only fault is the unbooked histogram of slot 2. -/
theorem C10_no_index_fault_witness :
    VerticesValid (demoEvent [demoMuon (3 / 2)] true) ∧
      (∀ t ∈ selected unbookedValidation (demoEvent [demoMuon (3 / 2)] true),
        isSimTrackGood unbookedValidation t = true ∧ t.vertIndex ≠ -1 ∧
          vertexSlot t < (demoEvent [demoMuon (3 / 2)] true).sim_vertices.length) ∧
      (∀ u, analyze (constMatcher [(3, [demoStub])]) demoChamberType unbookedValidation
          (demoEvent [demoMuon (3 / 2)] true) demoSetup = .error u →
        ∃ i, i < 10 ∧ u = .nullHistogram i) ∧
      (Booked unbookedValidation →
        ∃ self1, analyze (constMatcher [(3, [demoStub])]) demoChamberType unbookedValidation
          (demoEvent [demoMuon (3 / 2)] true) demoSetup = .ok self1) :=
  ⟨demo_verticesValid true,
   C10_no_index_fault (constMatcher [(3, [demoStub])]) demoChamberType unbookedValidation
    (demoEvent [demoMuon (3 / 2)] true) demoSetup (demo_verticesValid true)
    (by
      rw [(demo_eventTrace_of (constMatcher [(3, [demoStub])]) unbookedValidation
        rfl rfl rfl true).2]
      intro tr htr
      simp only [List.mem_singleton] at htr
      subst htr
      decide)⟩

/-! ## Calls on the stub matcher -/

/-- C9: run with a matcher that records the calls it receives and answers `clcts()` by an
arbitrary function `result` of that history, on an event whose non-sentinel vertex
references are indices into its vertex list (of fewer than `2^64` vertices), a completed
`analyze` has made exactly: one `init` call, then one `match` call per particle passing
`isSimTrackGood`, in collection order, each with the vertex stored at position
`t.vertIndex` of the vertex list, and no other call. The match result read for the `i`-th
selected particle is `result` of the history ending with that particle's own `match` call;
with booked bins and keys classifying into `[1,10]` the samples added to the bins of type
`k` count the particles whose own result has a key of type `k`, so no hit flag carries over
from one particle to the next. -/
theorem C9_matcher_call_sequence (result : List MatcherCall → MatchResult) (c : Nat → Nat)
    (self self1 : CSCStubResolutionValidation (List MatcherCall)) (e : Event) (es : EventSetup)
    (hv : VerticesValid e) (hsize : e.sim_vertices.length < 2 ^ 64)
    (hok : analyze (recordingMatcher result) c self e es = .ok self1) :
    ∃ calls : List MatcherCall,
      self1.cscStubMatcher_ = self.cscStubMatcher_ ++ MatcherCall.init e es :: calls ∧
      List.Forall₂
        (fun t call => 0 ≤ t.vertIndex ∧
          ∃ v, e.sim_vertices[t.vertIndex.toNat]? = some v ∧ call = MatcherCall.match_ t v)
        (e.sim_tracks.filter (fun t => isSimTrackGood self t)) calls ∧
      (∀ i, (eventTrace (recordingMatcher result) self e es)[i]? =
        ((e.sim_tracks.filter (fun t => isSimTrackGood self t))[i]?).map
          (fun t => (t, result (self.cscStubMatcher_ ++
            MatcherCall.init e es :: calls.take (i + 1))))) ∧
      (Booked self → KeysInRange c (eventTrace (recordingMatcher result) self e es) →
        ∀ k : Fin 10,
          samples (self1.posresCLCT_hs k) = samples (self.posresCLCT_hs k) ++
            List.replicate
              (hitCount c (eventTrace (recordingMatcher result) self e es) (k.val + 1)) 0 ∧
          samples (self1.posresCLCT_qs k) = samples (self.posresCLCT_qs k) ++
            List.replicate
              (hitCount c (eventTrace (recordingMatcher result) self e es) (k.val + 1)) 0 ∧
          samples (self1.posresCLCT_es k) = samples (self.posresCLCT_es k) ++
            List.replicate
              (hitCount c (eventTrace (recordingMatcher result) self e es) (k.val + 1)) 0) := by
  have hinit : (afterInit (recordingMatcher result) self e es).cscStubMatcher_
      = self.cscStubMatcher_ ++ [MatcherCall.init e es] := rfl
  have hmv : self1.cscStubMatcher_ = matcherAfter (recordingMatcher result) e.sim_vertices
        (selected self e) (self.cscStubMatcher_ ++ [MatcherCall.init e es]) := by
    have h := hok
    rw [analyze_unfold] at h
    split at h
    · rename_i hempty
      have hnil : selected self e = [] := List.isEmpty_iff.mp hempty
      injection h with h
      subst h
      rw [hnil]
      rfl
    · have h2 := (trackLoop_matcher _ c e.sim_vertices _ _ _ h).1
      rw [hinit] at h2
      exact h2
  have hvalid : ∀ t ∈ selected self e, vertexSlot t < e.sim_vertices.length :=
    vertexSlot_lt_of_good self e hv
  have hidx : ∀ t ∈ selected self e, 0 ≤ t.vertIndex ∧ t.vertIndex < e.sim_vertices.length := by
    intro t ht
    obtain ⟨hmem, hgood⟩ := List.mem_filter.mp ht
    exact hv t hmem ((isSimTrackGood_iff self t).mp hgood).1
  have hselect : e.sim_tracks.filter (fun t => isSimTrackGood self t) = selected self e := rfl
  rw [hselect]
  refine ⟨matchCalls e.sim_vertices (selected self e), ?_,
    matchCalls_forall2_index e.sim_vertices hsize _ hidx, ?_, ?_⟩
  · rw [hmv, matcherAfter_recording result e.sim_vertices _ _ hvalid]
    simp
  · intro i
    have h := matchTrace_recording result e.sim_vertices (selected self e)
      (self.cscStubMatcher_ ++ [MatcherCall.init e es]) i hvalid
    simp only [List.append_assoc, List.singleton_append] at h
    rw [← matchCalls_take e.sim_vertices _ _ hvalid]
    exact h
  · intro hb hk k
    have h2 := analyze_ok_of_slots (recordingMatcher result) c self e es hb hvalid hk
    rw [hok] at h2
    injection h2 with h2
    subst h2
    exact ⟨samples_map_fillMany _ _ (hb k).1, samples_map_fillMany _ _ (hb k).2.1,
      samples_map_fillMany _ _ (hb k).2.2⟩

/-- C9 (witness): an event with two distinct vertices and three particles: an eligible muon
with vertex index 0, an ineligible one, and a second eligible muon with vertex index 1. The
recording matcher ends with `init`, `match` for the first particle with vertex 0, `match`
for the third particle with vertex 1; the first particle reads a type-3 result, the third a
type-5 result, and the bins of types 3 and 5 get one sample each, those of type 1 none. -/
theorem C9_matcher_call_sequence_witness :
    VerticesValid demoEvent3 ∧
    ∃ self1, analyze (recordingMatcher demoResult) demoChamberType demoRecording demoEvent3
        demoSetup = .ok self1 ∧
      self1.cscStubMatcher_ =
        [MatcherCall.init demoEvent3 demoSetup,
         MatcherCall.match_ (demoMuon (3 / 2)) { x := 0, y := 0, z := 0 },
         MatcherCall.match_ demoMuonAtOne { x := 0, y := 0, z := 7 }] ∧
      eventTrace (recordingMatcher demoResult) demoRecording demoEvent3 demoSetup =
        [(demoMuon (3 / 2), [(3, [demoStub])]), (demoMuonAtOne, [(5, [demoStub, demoStub])])] ∧
      samples (self1.posresCLCT_hs 2) = [0] ∧ samples (self1.posresCLCT_hs 4) = [0] ∧
      samples (self1.posresCLCT_hs 0) = [] := by
  have g1 : isSimTrackGood demoRecording (demoMuon (3 / 2)) = true :=
    demoMuon_good_of demoRecording rfl rfl rfl
  have g2 : isSimTrackGood demoRecording (demoMuon (13 / 5)) = false :=
    not_good_of_excluded _ _ (demoMuon_excluded_of demoRecording rfl)
  have g3 : isSimTrackGood demoRecording demoMuonAtOne = true := by
    have hn : narrowedAbsEta demoMuonAtOne = Fp.fin 2 := by
      simp only [narrowedAbsEta, demoMuonAtOne, Fp.abs, Fp.toFloat]
      rw [show |(-2 : ℚ)| = 2 by norm_num [abs_of_neg], narrow_two]
    rw [isSimTrackGood_iff, hn]
    norm_num [demoRecording, demoMuonAtOne, Fp.lt]
  have hsel : selected demoRecording demoEvent3 = [demoMuon (3 / 2), demoMuonAtOne] := by
    simp [selected, demoEvent3, List.filter, g1, g2, g3]
  have hvv : VerticesValid demoEvent3 := by
    intro t ht _
    simp only [demoEvent3, List.mem_cons, List.mem_singleton, List.not_mem_nil,
      or_false] at ht
    rcases ht with rfl | rfl | rfl <;> decide
  have htrace : eventTrace (recordingMatcher demoResult) demoRecording demoEvent3 demoSetup =
      [(demoMuon (3 / 2), [(3, [demoStub])]),
       (demoMuonAtOne, [(5, [demoStub, demoStub])])] := by
    rw [eventTrace, hsel]
    rfl
  have hb : Booked demoRecording := fun _ => ⟨rfl, rfl, rfl⟩
  have hk : KeysInRange demoChamberType
      (eventTrace (recordingMatcher demoResult) demoRecording demoEvent3 demoSetup) := by
    rw [htrace]
    intro tr htr p hp
    simp only [List.mem_cons, List.mem_singleton, List.not_mem_nil, or_false] at htr
    rcases htr with rfl | rfl
    · simp only [List.mem_singleton] at hp
      subst hp
      decide
    · simp only [List.mem_singleton] at hp
      subst hp
      decide
  have hok := analyze_ok (recordingMatcher demoResult) demoChamberType demoRecording
    demoEvent3 demoSetup hb hvv hk
  obtain ⟨calls, hcalls, hfor, -, hbins⟩ := C9_matcher_call_sequence demoResult
    demoChamberType demoRecording _ demoEvent3 demoSetup hvv (by decide) hok
  have hselect : demoEvent3.sim_tracks.filter (fun t => isSimTrackGood demoRecording t)
      = [demoMuon (3 / 2), demoMuonAtOne] := hsel
  rw [hselect] at hfor
  have hcalls2 : calls = [MatcherCall.match_ (demoMuon (3 / 2)) { x := 0, y := 0, z := 0 },
      MatcherCall.match_ demoMuonAtOne { x := 0, y := 0, z := 7 }] := by
    cases hfor with
    | cons h1 hrest =>
      cases hrest with
      | cons h2 hnil =>
        cases hnil
        obtain ⟨-, v1, hv1, rfl⟩ := h1
        obtain ⟨-, v2, hv2, rfl⟩ := h2
        have e1 : v1 = { x := 0, y := 0, z := 0 } := by
          have : demoEvent3.sim_vertices[(demoMuon (3 / 2)).vertIndex.toNat]?
              = some { x := 0, y := 0, z := 0 } := rfl
          rw [this] at hv1
          exact (Option.some.inj hv1).symm
        have e2 : v2 = { x := 0, y := 0, z := 7 } := by
          have : demoEvent3.sim_vertices[demoMuonAtOne.vertIndex.toNat]?
              = some { x := 0, y := 0, z := 7 } := rfl
          rw [this] at hv2
          exact (Option.some.inj hv2).symm
        rw [e1, e2]
  refine ⟨hvv, _, hok, ?_, htrace, ?_, ?_, ?_⟩
  · rw [hcalls, hcalls2]
    rfl
  · rw [(hbins hb hk 2).1, htrace]
    rfl
  · rw [(hbins hb hk 4).1, htrace]
    rfl
  · rw [(hbins hb hk 0).1, htrace]
    rfl

/-! ## Booking -/

/-- C6: `bookHistograms` completes and books exactly 30 histograms, in folder
`MuonCSCDigisV/CSCDigiTask/Stub/Resolution/`: for every detector type `i` in `1..10` the
three named `CLCTPosRes_hs_`, `CLCTPosRes_qs_`, `CLCTPosRes_es_` followed by the chamber name
of type `i`, each with 100 bins on `[-1, 1]` and no sample, stored at index `i - 1` of the
three arrays; afterwards every (type, granularity) pair looks up a defined handle, and when
the ten chamber names are pairwise distinct the thirty names are pairwise distinct. -/
theorem C6_bookHistograms_books_thirty {σ : Type} (chamberName : Nat → String)
    (self : CSCStubResolutionValidation σ) (iBooker : IBooker) :
    ∃ self1 b1, bookHistograms chamberName self iBooker = .ok (self1, b1) ∧
      b1.booked = iBooker.booked ++
        (List.range' 1 10).flatMap (bookedTriple chamberName resolutionFolder) ∧
      ((List.range' 1 10).flatMap (bookedTriple chamberName resolutionFolder)).length = 30 ∧
      (∀ me ∈ (List.range' 1 10).flatMap (bookedTriple chamberName resolutionFolder),
        me.nchX = 100 ∧ me.lowX = -1 ∧ me.highX = 1 ∧ me.entries = []) ∧
      (∀ k : Fin 10,
        self1.posresCLCT_hs k = some
          (bookedHistogram resolutionFolder "CLCTPosRes_hs_" (chamberName (k.val + 1))) ∧
        self1.posresCLCT_qs k = some
          (bookedHistogram resolutionFolder "CLCTPosRes_qs_" (chamberName (k.val + 1))) ∧
        self1.posresCLCT_es k = some
          (bookedHistogram resolutionFolder "CLCTPosRes_es_" (chamberName (k.val + 1)))) ∧
      Booked self1 ∧
      ((∀ i j, 1 ≤ i → i ≤ 10 → 1 ≤ j → j ≤ 10 → chamberName i = chamberName j → i = j) →
        (((List.range' 1 10).flatMap (bookedTriple chamberName resolutionFolder)).map
          (fun me => me.name)).Nodup) := by
  obtain ⟨self1, b1, hok, -, hbooked, hslots⟩ := bookLoop_ok chamberName (List.range' 1 10) self
    (iBooker.setCurrentFolder "MuonCSCDigisV/CSCDigiTask/Stub/Resolution/")
    (fun i hi => by have h := List.mem_range'_1.mp hi; omega)
  have hmem : ∀ k : Fin 10, k.val + 1 ∈ List.range' 1 10 := by
    intro k
    have hk : k.val < 10 := k.isLt
    exact List.mem_range'_1.mpr (by omega)
  have hall : ∀ k : Fin 10,
      self1.posresCLCT_hs k = some
        (bookedHistogram resolutionFolder "CLCTPosRes_hs_" (chamberName (k.val + 1))) ∧
      self1.posresCLCT_qs k = some
        (bookedHistogram resolutionFolder "CLCTPosRes_qs_" (chamberName (k.val + 1))) ∧
      self1.posresCLCT_es k = some
        (bookedHistogram resolutionFolder "CLCTPosRes_es_" (chamberName (k.val + 1))) := by
    intro k
    obtain ⟨a1, a2, a3⟩ := hslots k
    rw [if_pos (hmem k)] at a1 a2 a3
    exact ⟨a1, a2, a3⟩
  refine ⟨self1, b1, hok, hbooked, rfl, ?_, hall, ?_, ?_⟩
  · intro me hme
    obtain ⟨i, -, hi⟩ := List.mem_flatMap.mp hme
    simp only [bookedTriple, List.mem_cons, List.mem_singleton, List.not_mem_nil,
      or_false] at hi
    rcases hi with rfl | rfl | rfl <;> exact ⟨rfl, rfl, rfl, rfl⟩
  · intro k
    obtain ⟨a1, a2, a3⟩ := hall k
    rw [a1, a2, a3]
    exact ⟨rfl, rfl, rfl⟩
  · exact bookedTriple_names_nodup chamberName resolutionFolder

/-- C6 (witness): booking on an object without histograms, with ten distinct example labels:
thirty histograms with distinct names, slot 2 of the half-strip array named
`CLCTPosRes_hs_ME1/2`, after which an event with a type-3 stub can be analysed. -/
theorem C6_bookHistograms_books_thirty_witness :
    (∀ i j, 1 ≤ i → i ≤ 10 → 1 ≤ j → j ≤ 10 → demoChamberName i = demoChamberName j → i = j) ∧
    ∃ self1 b1, bookHistograms demoChamberName unbookedValidation
        { currentFolder := "", booked := [] } = .ok (self1, b1) ∧
      b1.booked.length = 30 ∧
      (b1.booked.map (fun me => me.name)).Nodup ∧
      (self1.posresCLCT_hs 2).map (fun me => me.name) = some "CLCTPosRes_hs_ME1/2" ∧
      Booked self1 := by
  have hinj : ∀ i j, 1 ≤ i → i ≤ 10 → 1 ≤ j → j ≤ 10 →
      demoChamberName i = demoChamberName j → i = j := by
    intro i j h1 h2 h3 h4
    interval_cases i <;> interval_cases j <;> decide
  obtain ⟨self1, b1, hok, hbooked, hlen, -, hslots, hb, hnd⟩ :=
    C6_bookHistograms_books_thirty demoChamberName unbookedValidation
      { currentFolder := "", booked := [] }
  refine ⟨hinj, self1, b1, hok, ?_, ?_, ?_, hb⟩
  · rw [hbooked, List.length_append, hlen]
    rfl
  · rw [hbooked]
    exact hnd hinj
  · rw [(hslots 2).1]
    decide

end CSCStubResolution
